import Mathlib

/-!
# The unlock indicator of i3lock (`src/unlock_indicator.c`)

A shallow embedding of `draw_image` and `start_time_redraw_tick`.

`draw_image` is a straight-line sequence of cairo calls on four drawing
contexts.  It is embedded as the list of cairo calls it issues, in program
order, every call tagged with the source line of the call and the context it
is issued on.  A small interpreter of the cairo drawing state (`paints`) turns
such a list into the list of things actually painted, each with the source
colour, line width, font size and path in effect at that moment.

Conventions of the embedding:

* C `double` values are rationals.  Where the rounding of `double`
  arithmetic decides an integer result it is modelled by `to_double` (IEEE 754
  binary64, round to nearest even): the minute count of line 151 and the
  banner sizes of lines 427-428.  Colours, coordinates and the ceilings of
  lines 107, 386 and 387 are taken of the exact values; angles are exact
  values `rat + pi * π` (structure `angle`), so `M_PI` is exact;
* C `int` / `time_t` values are `Int`, with C truncating division
  (`Int.tdiv`, `Int.tmod`); where the source computes in `uint32_t`
  the wrap-around modulo `2 ^ 32` is explicit;
* results of calls into other translation units or libraries (`time`, `rand`,
  `get_dpi_value`, `cairo_text_extents`) are fields of the environment.
-/

namespace UnlockIndicator

/-! ## Constants (lines 29-34) -/

/-- Macro `#define BUTTON_RADIUS 90` -/
def BUTTON_RADIUS : Int := 90

/-- Macro `#define BUTTON_SPACE (BUTTON_RADIUS + 5)` -/
def BUTTON_SPACE : Int := BUTTON_RADIUS + 5

/-- Macro `#define BUTTON_CENTER (BUTTON_RADIUS + 5)` -/
def BUTTON_CENTER : Int := BUTTON_RADIUS + 5

/-- Macro `#define BUTTON_DIAMETER (2 * BUTTON_SPACE)` -/
def BUTTON_DIAMETER : Int := 2 * BUTTON_SPACE

/-- Macro `#define INFO_MAXLENGTH 100` -/
def INFO_MAXLENGTH : Nat := 100

/-- Macro `#define INFO_MARGIN 12` -/
def INFO_MARGIN : Int := 12

/-! ## State enumerations and geometry -/

/-- Modelled from the spec: the declaration of `unlock_state_t` lives in
`unlock_indicator.h`, which is not part of the sources.  The constructors are
the four enumerators `unlock_indicator.c` names; they are the four values of
the spec's `InputState` (`Idle | KeyActive | BackspaceActive |
NothingToDelete`), `STATE_KEY_PRESSED` being the value `clear_indicator`
forces. -/
inductive unlock_state_t
  | STATE_KEY_PRESSED
  | STATE_KEY_ACTIVE
  | STATE_BACKSPACE_ACTIVE
  | STATE_NOTHING_TO_DELETE
  deriving DecidableEq, Repr

/-- Modelled from the spec: the declaration of `auth_state_t` lives in
`unlock_indicator.h`, which is not part of the sources.  The constructors are
the five enumerators `unlock_indicator.c` names; they are the five values of
the spec's `AuthState` (`Idle | Verifying | Locking | Wrong | LockFailed`). -/
inductive auth_state_t
  | STATE_AUTH_IDLE
  | STATE_AUTH_VERIFY
  | STATE_AUTH_LOCK
  | STATE_AUTH_WRONG
  | STATE_I3LOCK_LOCK_FAILED
  deriving DecidableEq, Repr

/-- Modelled from the spec: the element type of `xr_resolutions` is declared in
`randr.h`, which is not part of the sources.  An output is `{x, y, width,
height}`; position is signed, size is unsigned. -/
structure Rect where
  x : Int
  y : Int
  width : Nat
  height : Nat
  deriving DecidableEq, Repr

/-! ## Angles and cairo calls -/

/-- An angle in radians, kept exact: the value is `rat + pi * π`. -/
structure angle where
  rat : ℚ
  pi : ℚ
  deriving DecidableEq

instance : Add angle := ⟨fun a b => ⟨a.rat + b.rat, a.pi + b.pi⟩⟩

instance : Sub angle := ⟨fun a b => ⟨a.rat - b.rat, a.pi - b.pi⟩⟩

/-- The constant `M_PI` of `math.h`. -/
def M_PI : angle := ⟨0, 1⟩

/-- A plain `double` used as an angle. -/
def angle.of_rat (q : ℚ) : angle := ⟨q, 0⟩

/-- The product `q * a` of a `double` and an angle. -/
def angle.mul (q : ℚ) (a : angle) : angle := ⟨q * a.rat, q * a.pi⟩

/-- The quotient `a / q` of an angle by a `double`. -/
def angle.div (a : angle) (q : ℚ) : angle := ⟨a.rat / q, a.pi / q⟩

/-- The four `cairo_t` contexts of `draw_image`. -/
inductive cairo_ctx
  | ctx
  | xcb_ctx
  | ctx_modifier
  | ctx_indicator
  deriving DecidableEq, Repr

/-- The surfaces of `draw_image`: the off-screen indicator (`output`), the
returned background (`xcb_output`), the configured image (`img`), the modifier
panel and the logout banner. -/
inductive cairo_surface
  | output
  | xcb_output
  | img
  | output_modifier
  | output_indicator
  deriving DecidableEq, Repr

/-- The cairo calls `draw_image` makes.  Coordinates that are C integers at
every call site (`cairo_set_source_surface`, `cairo_rectangle`, surface sizes)
are recorded as the integers they are before conversion to `double`. -/
inductive cairo_call
  | image_surface_create (s : cairo_surface) (width height : Int)
  | xcb_surface_create (width height : Int)
  | scale (sx sy : ℚ)
  | set_line_width (w : ℚ)
  | set_font_size (size : ℚ)
  | set_source_rgb (r g b : ℚ)
  | set_source_rgba (r g b a : ℚ)
  | set_source_surface (s : cairo_surface) (x y : Int)
  | set_source_pattern (s : cairo_surface)
  | pattern_set_extend_repeat
  | arc (xc yc radius : ℚ) (angle1 angle2 : angle)
  | rectangle (x y width height : Int)
  | move_to (x y : ℚ)
  | new_sub_path
  | close_path
  | show_text (s : String)
  | paint
  | fill
  | fill_preserve
  | stroke
  | stroke_preserve
  | surface_destroy (s : cairo_surface)
  | destroy
  deriving DecidableEq

/-- One call of `draw_image`: the source line, the context, the call. -/
structure traced where
  line : Nat
  cr : cairo_ctx
  call : cairo_call
  deriving DecidableEq

/-- A run of calls on one context. -/
def calls_on (cr : cairo_ctx) (l : List (Nat × cairo_call)) : List traced :=
  l.map fun p => ⟨p.1, cr, p.2⟩

/-- The result of `cairo_text_extents`. -/
structure cairo_text_extents_t where
  x_bearing : ℚ
  y_bearing : ℚ
  width : ℚ
  height : ℚ
  x_advance : ℚ
  y_advance : ℚ

/-! ## Environment -/

/-- The variables `draw_image` reads (lines 40-97, `randr.h`, `i3lock.h`) and
the results of the external calls it makes. -/
structure env where
  /-- Global `extern bool unlock_indicator` -/
  unlock_indicator : Bool
  /-- Global `extern char *modifier_string`, `none` for `NULL` -/
  modifier_string : Option String
  /-- Global `extern cairo_surface_t *img`: whether an image is configured -/
  img : Bool
  /-- Global `extern bool tile` -/
  tile : Bool
  /-- Global `extern char color[7]`: its first six characters -/
  color : Fin 6 → Char
  /-- Global `extern bool show_failed_attempts` -/
  show_failed_attempts : Bool
  /-- Global `extern int failed_attempts` -/
  failed_attempts : Int
  /-- Global `extern time_t lock_time` -/
  lock_time : Int
  /-- Global `extern char *login`, `none` for `NULL` -/
  login : Option String
  /-- Global `unlock_state_t unlock_state` -/
  unlock_state : unlock_state_t
  /-- Global `auth_state_t auth_state` -/
  auth_state : auth_state_t
  /-- Array `xr_resolutions[0 .. xr_screens - 1]` -/
  xr_resolutions : List Rect
  /-- Global `extern uint32_t last_resolution[2]` -/
  last_resolution : Nat × Nat
  /-- The macro `AUTHORIZED_LOCK_TIME`, defined outside the sources. -/
  AUTHORIZED_LOCK_TIME : Int
  /-- The value `get_dpi_value()` returns. -/
  dpi_value : Int
  /-- The value `time(NULL)` returns. -/
  curtime : Int
  /-- The value `rand()` returns, in `0 .. RAND_MAX`. -/
  rand_value : Nat
  /-- What `cairo_text_extents` measures on a context at a font size. -/
  text_extents : cairo_ctx → ℚ → String → cairo_text_extents_t

/-- Global `xr_screens`, the number of outputs. -/
def env.xr_screens (g : env) : Int := g.xr_resolutions.length

/-! ## C library helpers -/

/-- Conversion of a `double` to `int`: truncation toward zero. -/
def c_trunc (q : ℚ) : Int := if 0 ≤ q then ⌊q⌋ else ⌈q⌉

/-- Rounding to the nearest integer, a tie going to the even one. -/
def round_half_even (q : ℚ) : Int :=
  if q - ⌊q⌋ < 1 / 2 then ⌊q⌋
  else if 1 / 2 < q - ⌊q⌋ then ⌊q⌋ + 1
  else if ⌊q⌋ % 2 = 0 then ⌊q⌋ else ⌊q⌋ + 1

/-- The `double` nearest to a value (IEEE 754 binary64, round to nearest, ties
to even; exponent range not modelled): with `2 ^ e <= |q| < 2 ^ (e + 1)` the
value is rounded to a multiple of `2 ^ (e - 52)`, that is to 53 significant
bits.  It is the result of a conversion to `double` and of one `double`
operation on the exact result. -/
def to_double (q : ℚ) : ℚ :=
  if q = 0 then 0
  else (round_half_even (q / 2 ^ (Int.log 2 |q| - 52)) : ℚ) * 2 ^ (Int.log 2 |q| - 52)

/-- Conversion to `uint32_t`: reduction modulo `2 ^ 32`. -/
def to_uint32 (z : Int) : Int := z % 4294967296

/-- Conversion of a `uint32_t` value to `int` (two's complement). -/
def int_of_uint32 (u : Int) : Int := if u < 2147483648 then u else u - 4294967296

/-- Conversion of a `long` to `unsigned long`: reduction modulo `2 ^ 64`. -/
def to_ulong (z : Int) : Nat := (z % 18446744073709551616).toNat

/-- What `snprintf(buf, size, ...)` stores: at most `size - 1` characters of
the formatted text (all formats here are ASCII). -/
def snprintf (size : Nat) (formatted : String) : String :=
  ⟨formatted.data.take (size - 1)⟩

/-- The conversion `%.2lu`: decimal, at least two digits, zero padded. -/
def fmt_lu2 (z : Int) : String :=
  let s := Nat.repr (to_ulong z)
  ⟨List.replicate (2 - s.length) '0'⟩ ++ s

/-- The conversion `%i`: signed decimal. -/
def fmt_i (z : Int) : String :=
  match z with
  | Int.ofNat n => Nat.repr n
  | Int.negSucc n => "-" ++ Nat.repr (n + 1)

/-- The value of one hexadecimal digit, if the character is one. -/
def hex_digit (c : Char) : Option Nat :=
  if 48 ≤ c.toNat ∧ c.toNat ≤ 57 then some (c.toNat - 48)
  else if 97 ≤ c.toNat ∧ c.toNat ≤ 102 then some (c.toNat - 87)
  else if 65 ≤ c.toNat ∧ c.toNat ≤ 70 then some (c.toNat - 55)
  else none

/-- The characters `isspace` accepts in the C locale. -/
def c_isspace (c : Char) : Bool :=
  c.toNat = 32 || (9 ≤ c.toNat && c.toNat ≤ 13)

/-- The value of `strtol(s, NULL, 16)` on the two-character string
`{c0, c1, 0}`, stored into a `uint32_t`: leading white space and a sign are
skipped, then the longest run of hexadecimal digits is converted (`0x` with no
digit after it parses as `0`). -/
def strtol16 (c0 c1 : Char) : Int :=
  match hex_digit c0, hex_digit c1 with
  | some a, some b => 16 * a + b
  | some a, none => a
  | none, some b =>
      if c_isspace c0 || c0 = '+' then b
      else if c0 = '-' then to_uint32 (-(b : Int))
      else 0
  | none, none => 0

/-! ## `draw_image` (lines 104-482) -/

/-- Line 106: `scaling_factor = get_dpi_value() / 96.0`, the exact ratio. -/
def scaling_factor (g : env) : ℚ := (g.dpi_value : ℚ) / 96

/-- Line 106: the `double` that `scaling_factor` holds, `get_dpi_value()`
converted to `double` and divided by `96.0`. -/
def scaling_factor_double (g : env) : ℚ :=
  to_double (to_double (g.dpi_value : ℚ) / 96)

/-- Line 107: `button_diameter_physical = ceil(scaling_factor * BUTTON_DIAMETER)`. -/
def button_diameter_physical (g : env) : Int :=
  ⌈scaling_factor g * (BUTTON_DIAMETER : ℚ)⌉

/-- Lines 150-151: `locked_time = difftime(curtime, lock_time) / 60`:
`difftime` gives the difference as a `double`, the division by 60 is a
`double` division, and the quotient is converted to `time_t`. -/
def locked_time (g : env) : Int :=
  c_trunc (to_double (to_double ((g.curtime - g.lock_time : Int) : ℚ) / 60))

/-- Lines 117-121: the two surfaces and their contexts; the `uint32_t`
resolution is converted to the `int` width and height of
`cairo_xcb_surface_create`.  (`create_bg_pixmap` of `xcb.c`, line 113,
allocates the pixmap behind `xcb_output`; it makes no cairo call.) -/
def setup_block (g : env) (resolution : Nat × Nat) : List traced :=
  [⟨117, .ctx, .image_surface_create .output
      (button_diameter_physical g) (button_diameter_physical g)⟩,
   ⟨120, .xcb_ctx, .xcb_surface_create
      (int_of_uint32 (to_uint32 resolution.1)) (int_of_uint32 (to_uint32 resolution.2))⟩]

/-- Lines 123-147: the background, an image (plain or tiled) or a colour. -/
def background_block (g : env) (resolution : Nat × Nat) : List traced :=
  calls_on .xcb_ctx
    (if g.img then
      if !g.tile then
        [(125, .set_source_surface .img 0 0), (126, .paint)]
      else
        [(131, .set_source_pattern .img), (132, .pattern_set_extend_repeat),
         (133, .rectangle 0 0 resolution.1 resolution.2), (134, .fill)]
    else
      [(144, .set_source_rgb
          ((strtol16 (g.color 0) (g.color 1) : ℚ) / 255)
          ((strtol16 (g.color 2) (g.color 3) : ℚ) / 255)
          ((strtol16 (g.color 4) (g.color 5) : ℚ) / 255)),
       (145, .rectangle 0 0 resolution.1 resolution.2), (146, .fill)])

/-- Lines 192, 215, 424: `locked_time >= AUTHORIZED_LOCK_TIME`. -/
def authorized_override (g : env) : Bool :=
  decide (g.AUTHORIZED_LOCK_TIME ≤ locked_time g)

/-- Lines 155-218: the ring, filled and stroked in the colour of the state. -/
def ring_block (g : env) : List (Nat × cairo_call) :=
  [(155, .scale (scaling_factor g) (scaling_factor g)),
   (157, .set_line_width 10.0),
   (158, .arc BUTTON_CENTER BUTTON_CENTER BUTTON_RADIUS
      (angle.of_rat 0) (angle.mul 2 M_PI))]
  ++ [match g.auth_state with
      | .STATE_AUTH_VERIFY | .STATE_AUTH_LOCK =>
          (177, .set_source_rgba 0 (114.0 / 255) (255.0 / 255) 0.75)
      | .STATE_AUTH_WRONG | .STATE_I3LOCK_LOCK_FAILED =>
          (181, .set_source_rgba (250.0 / 255) 0 0 0.75)
      | _ =>
          if g.unlock_state = .STATE_NOTHING_TO_DELETE then
            (185, .set_source_rgba (250.0 / 255) 0 0 0.75)
          else
            (188, .set_source_rgba 0 0 0 0.75)]
  ++ (if authorized_override g then
        [(193, .set_source_rgba (250.0 / 255) 0 0 0.75)] else [])
  ++ [(195, .fill_preserve)]
  ++ (match g.auth_state with
      | .STATE_AUTH_VERIFY | .STATE_AUTH_LOCK =>
          [(200, .set_source_rgb (51.0 / 255) 0 (250.0 / 255))]
      | .STATE_AUTH_WRONG | .STATE_I3LOCK_LOCK_FAILED =>
          [(204, .set_source_rgb (125.0 / 255) (51.0 / 255) 0)]
      | .STATE_AUTH_IDLE =>
          if g.unlock_state = .STATE_NOTHING_TO_DELETE then
            [(208, .set_source_rgb (125.0 / 255) (51.0 / 255) 0)]
          else
            [(212, .set_source_rgb (160.0 / 255) (160.0 / 255) (160.0 / 255))])
  ++ (if authorized_override g then
        [(216, .set_source_rgb (125.0 / 255) (51.0 / 255) 0)] else [])
  ++ [(218, .stroke)]

/-- Line 221: the time text,
`snprintf(text, INFO_MAXLENGTH - 1, "%.2lu:%.2lu", locked_time / 60, locked_time % 60)`. -/
def time_text (g : env) : String :=
  snprintf (INFO_MAXLENGTH - 1)
    (fmt_lu2 (Int.tdiv (locked_time g) 60) ++ ":" ++ fmt_lu2 (Int.tmod (locked_time g) 60))

/-- Line 228: the measured extents of the time text. -/
def time_extents (g : env) : cairo_text_extents_t :=
  g.text_extents .ctx 32.0 (time_text g)

/-- Line 229: `time_x`. -/
def time_x (g : env) : ℚ :=
  BUTTON_CENTER - (((time_extents g).width / 2) + (time_extents g).x_bearing)

/-- Line 230: `time_y`. -/
def time_y (g : env) : ℚ :=
  BUTTON_CENTER - (((time_extents g).height / 2) + (time_extents g).y_bearing)

/-- Lines 223-234: the time, centred. -/
def time_block (g : env) : List (Nat × cairo_call) :=
  [(223, .set_source_rgb 255 255 255),
   (224, .set_font_size 32.0),
   (232, .move_to (time_x g) (time_y g)),
   (233, .show_text (time_text g)),
   (234, .close_path)]

/-- Lines 262-266: the failed-attempt text, `"1 failed attempt"` or
`snprintf(text, INFO_MAXLENGTH - 1, "%i failed attempts", failed_attempts)`. -/
def failed_attempts_text (g : env) : String :=
  if g.failed_attempts = 1 then "1 failed attempt"
  else snprintf (INFO_MAXLENGTH - 1) (fmt_i g.failed_attempts ++ " failed attempts")

/-- Lines 240-271: the pair `(text, has_special_state)` after the `switch`.
When no status applies `text` still points at the buffer holding the time. -/
def status_text (g : env) : String × Bool :=
  match g.auth_state with
  | .STATE_AUTH_VERIFY => ("Verifying...", true)
  | .STATE_AUTH_LOCK => ("Locking...", true)
  | .STATE_AUTH_WRONG => ("Wrong!", true)
  | .STATE_I3LOCK_LOCK_FAILED => ("Lock failed!", true)
  | _ =>
      if g.unlock_state = .STATE_NOTHING_TO_DELETE then ("No input", true)
      else if g.show_failed_attempts = true ∧ 0 < g.failed_attempts then
        (failed_attempts_text g, true)
      else (time_text g, false)

/-- Lines 238-280: the status line below the time. -/
def status_block (g : env) : List (Nat × cairo_call) :=
  [(238, .set_font_size 14.0)]
  ++ (if (status_text g).2 then
        let extents := g.text_extents .ctx 14.0 (status_text g).1
        [(277, .move_to (BUTTON_CENTER - ((extents.width / 2) + extents.x_bearing))
                 (time_y g - extents.y_bearing + INFO_MARGIN)),
         (278, .show_text (status_text g).1),
         (279, .close_path)]
      else [])

/-- Lines 282-293: the login name. -/
def login_block (g : env) : List (Nat × cairo_call) :=
  match g.login with
  | none => []
  | some login =>
      let extents := g.text_extents .ctx 14.0 login
      [(290, .move_to (BUTTON_CENTER - ((extents.width / 2) + extents.x_bearing))
               (if (status_text g).2 then
                  time_y g - (time_extents g).y_bearing + INFO_MARGIN * 2
                else
                  time_y g - extents.y_bearing + INFO_MARGIN)),
       (291, .show_text login),
       (292, .close_path)]

/-- Lines 295-305: the caption above the time, and the move that follows. -/
def caption_block (g : env) : List (Nat × cairo_call) :=
  let extents := g.text_extents .ctx 14.0 "Locked for"
  let y : ℚ := time_y g + (time_extents g).y_bearing - INFO_MARGIN
  [(302, .move_to (BUTTON_CENTER - ((extents.width / 2) + extents.x_bearing)) y),
   (303, .show_text "Locked for"),
   (304, .close_path),
   (305, .move_to (BUTTON_CENTER + BUTTON_RADIUS - 5) (y - (time_extents g).y_bearing))]

/-- Lines 307-318: the inner separator ring. -/
def separator_block : List (Nat × cairo_call) :=
  [(308, .set_source_rgb 0 0 0),
   (309, .set_line_width 2.0),
   (310, .arc BUTTON_CENTER BUTTON_CENTER (BUTTON_RADIUS - 5)
      (angle.of_rat 0) (angle.mul 2 M_PI)),
   (316, .stroke),
   (318, .set_line_width 10.0)]

/-- Line 326: the constant `(int)(2 * M_PI * 100)`, that is `(int)628.318...`. -/
def highlight_modulus : Nat := 628

/-- Line 326: `highlight_start = (rand() % (int)(2 * M_PI * 100)) / 100.0`. -/
def highlight_start (g : env) : angle :=
  angle.of_rat (((g.rand_value % highlight_modulus : Nat) : ℚ) / 100.0)

/-- Lines 323-359: the highlight after a key press, with its two separators. -/
def highlight_block (g : env) : List (Nat × cairo_call) :=
  if g.unlock_state = .STATE_KEY_ACTIVE ∨ g.unlock_state = .STATE_BACKSPACE_ACTIVE then
    [(325, .new_sub_path),
     (327, .arc BUTTON_CENTER BUTTON_CENTER BUTTON_RADIUS
        (highlight_start g) (highlight_start g + angle.div M_PI 3.0)),
     (if g.unlock_state = .STATE_KEY_ACTIVE then (335, .set_source_rgb 1 1 1)
      else (338, .set_source_rgb 0 0 0)),
     (340, .stroke),
     (344, .set_source_rgb 0 0 0),
     (345, .arc BUTTON_CENTER BUTTON_CENTER BUTTON_RADIUS
        (highlight_start g) (highlight_start g + angle.div M_PI 128.0)),
     (351, .stroke),
     (352, .arc BUTTON_CENTER BUTTON_CENTER BUTTON_RADIUS
        ((highlight_start g + angle.div M_PI 3.0) - angle.div M_PI 128.0)
        (highlight_start g + angle.div M_PI 3.0)),
     (358, .stroke)]
  else []

/-- Lines 154-360: everything drawn on the indicator surface. -/
def indicator_block (g : env) : List traced :=
  if g.unlock_indicator then
    calls_on .ctx
      (ring_block g ++ time_block g ++ status_block g ++ login_block g
        ++ caption_block g ++ separator_block ++ highlight_block g)
  else []

/-- One composite of a surface onto the background: the line of its
`cairo_set_source_surface` call, the surface, and the rectangle filled. -/
structure placement where
  line : Nat
  s : cairo_surface
  x : Int
  y : Int
  w : Int
  h : Int
  deriving DecidableEq

/-- The three calls of one composite (lines 367-369, 377-379, 408-410,
415-417, 458-460, 468-470): `cairo_set_source_surface`, `cairo_rectangle`,
`cairo_fill`. -/
def composite (p : placement) : List (Nat × cairo_call) :=
  [(p.line, .set_source_surface p.s p.x p.y),
   (p.line + 1, .rectangle p.x p.y p.w p.h),
   (p.line + 2, .fill)]

/-- Lines 362-380: where the indicator goes, once in the middle of each output
(the `for` loop over `xr_resolutions`), or once in the middle of the root
window when no output is known.  The fallback computes in `uint32_t`
(`last_resolution` is unsigned) and converts the result to `int`. -/
def indicator_placements (g : env) : List placement :=
  let d := button_diameter_physical g
  if 0 < g.xr_screens then
    g.xr_resolutions.map fun r =>
      ⟨367, .output,
        r.x + (((r.width / 2 : Nat) : Int) - Int.tdiv d 2),
        r.y + (((r.height / 2 : Nat) : Int) - Int.tdiv d 2), d, d⟩
  else
    [⟨377, .output,
       int_of_uint32 (to_uint32 (((g.last_resolution.1 / 2 : Nat) : Int) - Int.tdiv d 2)),
       int_of_uint32 (to_uint32 (((g.last_resolution.2 / 2 : Nat) : Int) - Int.tdiv d 2)),
       d, d⟩]

/-- Lines 362-380: the indicator is composited. -/
def composite_block (g : env) : List traced :=
  calls_on .xcb_ctx ((indicator_placements g).flatMap composite)

/-- Lines 384, 386: `h_scaled = ceil(scaling_factor * h)` with `h = 50`. -/
def modifier_h_scaled (g : env) : Int := ⌈scaling_factor g * ((50 : Int) : ℚ)⌉

/-- Lines 385, 387: `w_scaled = ceil(scaling_factor * w)` with `w = 300`. -/
def modifier_w_scaled (g : env) : Int := ⌈scaling_factor g * ((300 : Int) : ℚ)⌉

/-- Lines 404-418: where the modifier panel goes. -/
def modifier_placements (g : env) : List placement :=
  let h_scaled := modifier_h_scaled g
  let w_scaled := modifier_w_scaled g
  if 0 < g.xr_screens then
    g.xr_resolutions.map fun r =>
      ⟨408, .output_modifier,
        r.x + ((r.width / 2 : Nat) : Int) - Int.tdiv w_scaled 2,
        r.y + ((r.height / 2 : Nat) : Int) + h_scaled + 50, w_scaled, h_scaled⟩
  else
    [⟨415, .output_modifier,
       int_of_uint32 (to_uint32
         (((g.last_resolution.1 / 2 : Nat) : Int) - Int.tdiv w_scaled 2)),
       int_of_uint32 (to_uint32
         (((g.last_resolution.2 / 2 : Nat) : Int) + h_scaled + 100)),
       w_scaled, h_scaled⟩]

/-- Lines 383-421: the panel naming the pressed modifiers. -/
def modifier_block (g : env) : List traced :=
  match g.auth_state, g.modifier_string with
  | .STATE_AUTH_WRONG, some modifier_string =>
      let h : Int := 50
      let w : Int := 300
      let extents := g.text_extents .ctx_modifier 14.0 modifier_string
      let x : Int := c_trunc ((Int.tdiv w 2 : Int) - ((extents.width / 2) + extents.x_bearing))
      let y : Int := c_trunc ((Int.tdiv h 2 : Int) - ((extents.height / 2) + extents.y_bearing))
      calls_on .ctx_modifier
        [(388, .image_surface_create .output_modifier
            (modifier_w_scaled g) (modifier_h_scaled g)),
         (390, .scale (scaling_factor g) (scaling_factor g)),
         (393, .set_font_size 14.0),
         (399, .set_source_rgb (250.0 / 255) 0 0),
         (400, .move_to x y),
         (401, .show_text modifier_string),
         (402, .close_path)]
      ++ calls_on .xcb_ctx ((modifier_placements g).flatMap composite)
      ++ calls_on .ctx_modifier
        [(419, .surface_destroy .output_modifier), (420, .destroy)]
  | _, _ => []

/-- Line 441: the text of the logout banner. -/
def banner_text : String := "Super + Shift + E to logout"

/-- Lines 425, 427: `h_scaled = ceil(scaling_factor * h)` with `h = 80`, the
product a `double`. -/
def banner_h_scaled (g : env) : Int :=
  ⌈to_double (scaling_factor_double g * ((80 : Int) : ℚ))⌉

/-- Lines 426, 428: `w_scaled = ceil(scaling_factor * w)` with `w = 450`, the
product a `double`: at 400 dpi it is a little above 1875 and the ceiling is
1876. -/
def banner_w_scaled (g : env) : Int :=
  ⌈to_double (scaling_factor_double g * ((450 : Int) : ℚ))⌉

/-- Lines 453-471: where the logout banner goes. -/
def banner_placements (g : env) : List placement :=
  let h_scaled := banner_h_scaled g
  let w_scaled := banner_w_scaled g
  if 0 < g.xr_screens then
    g.xr_resolutions.map fun r =>
      ⟨458, .output_indicator,
        r.x + ((r.width / 2 : Nat) : Int) - Int.tdiv w_scaled 2,
        r.y + (r.height : Int) - h_scaled - 50, w_scaled, h_scaled⟩
  else
    [⟨468, .output_indicator,
       int_of_uint32 (to_uint32
         (((g.last_resolution.1 / 2 : Nat) : Int) - Int.tdiv w_scaled 2)),
       int_of_uint32 (to_uint32 ((g.last_resolution.2 : Int) - h_scaled - 50)),
       w_scaled, h_scaled⟩]

/-- Lines 424-474: the logout banner. -/
def banner_block (g : env) : List traced :=
  if authorized_override g then
    let h : Int := 80
    let w : Int := 450
    let extents := g.text_extents .ctx_indicator 32.0 banner_text
    let x : Int := c_trunc ((Int.tdiv w 2 : Int) - ((extents.width / 2) + extents.x_bearing))
    let y : Int := c_trunc ((Int.tdiv h 2 : Int) - ((extents.height / 2) + extents.y_bearing))
    calls_on .ctx_indicator
      [(429, .image_surface_create .output_indicator
          (banner_w_scaled g) (banner_h_scaled g)),
       (431, .scale (scaling_factor g) (scaling_factor g)),
       (434, .set_source_rgba (250.0 / 255) 0 0 0.75),
       (435, .rectangle 0 0 w h),
       (436, .stroke_preserve),
       (437, .fill),
       (440, .set_source_rgb 1 1 1),
       (444, .set_font_size 32.0),
       (450, .move_to x y),
       (451, .show_text banner_text),
       (452, .close_path)]
    ++ calls_on .xcb_ctx ((banner_placements g).flatMap composite)
    ++ calls_on .ctx_indicator
      [(472, .surface_destroy .output_indicator), (473, .destroy)]
  else []

/-- Lines 477-480: the surfaces and contexts are released. -/
def cleanup_block : List traced :=
  [⟨477, .xcb_ctx, .surface_destroy .xcb_output⟩,
   ⟨478, .ctx, .surface_destroy .output⟩,
   ⟨479, .ctx, .destroy⟩,
   ⟨480, .xcb_ctx, .destroy⟩]

/-- The function `draw_image(resolution)`: the cairo calls it makes, in order. -/
def draw_image (g : env) (resolution : Nat × Nat) : List traced :=
  setup_block g resolution ++ background_block g resolution ++ indicator_block g
    ++ composite_block g ++ modifier_block g ++ banner_block g ++ cleanup_block

/-! ## What a list of cairo calls paints -/

/-- The source of a cairo context. -/
inductive cairo_source
  | rgb (r g b : ℚ)
  | rgba (r g b a : ℚ)
  | surface (s : cairo_surface) (x y : Int)
  | pattern (s : cairo_surface) (repeated : Bool)
  deriving DecidableEq

/-- The part of a cairo context the calls of `draw_image` change.  A new
context has an opaque black source, line width 2, font size 10, no path. -/
structure cairo_state where
  source : cairo_source := .rgb 0 0 0
  line_width : ℚ := 2
  font_size : ℚ := 10
  path : List cairo_call := []

/-- The four ways of putting colour on a surface. -/
inductive paint_kind
  | paint
  | fill
  | stroke
  | text (s : String)
  deriving DecidableEq

/-- One painting operation, with the state it was made in: `path` is the path
filled or stroked (for text, the path whose last `move_to` is the origin). -/
structure painted where
  line : Nat
  kind : paint_kind
  source : cairo_source
  line_width : ℚ
  font_size : ℚ
  path : List cairo_call
  deriving DecidableEq

/-- The effect of one cairo call: the new state and what the call paints. -/
def cairo_step (st : cairo_state) (l : Nat) (c : cairo_call) : cairo_state × List painted :=
  let emit (k : paint_kind) : List painted :=
    [⟨l, k, st.source, st.line_width, st.font_size, st.path⟩]
  match c with
  | .set_line_width w => ({ st with line_width := w }, [])
  | .set_font_size sz => ({ st with font_size := sz }, [])
  | .set_source_rgb r g b => ({ st with source := .rgb r g b }, [])
  | .set_source_rgba r g b a => ({ st with source := .rgba r g b a }, [])
  | .set_source_surface s x y => ({ st with source := .surface s x y }, [])
  | .set_source_pattern s => ({ st with source := .pattern s false }, [])
  | .pattern_set_extend_repeat =>
      ({ st with source :=
          match st.source with
          | .pattern s _ => .pattern s true
          | src => src }, [])
  | .arc _ _ _ _ _ | .rectangle _ _ _ _ | .move_to _ _ | .new_sub_path | .close_path =>
      ({ st with path := st.path ++ [c] }, [])
  | .show_text s => (st, emit (.text s))
  | .paint => (st, emit .paint)
  | .fill => ({ st with path := [] }, emit .fill)
  | .fill_preserve => (st, emit .fill)
  | .stroke => ({ st with path := [] }, emit .stroke)
  | .stroke_preserve => (st, emit .stroke)
  | .image_surface_create _ _ _ | .xcb_surface_create _ _ | .scale _ _
  | .surface_destroy _ | .destroy => (st, [])

/-- What a run of calls on one context paints, from a given state. -/
def cairo_run (st : cairo_state) : List (Nat × cairo_call) → List painted
  | [] => []
  | c :: cs => (cairo_step st c.1 c.2).2 ++ cairo_run (cairo_step st c.1 c.2).1 cs

/-- The calls of a trace that are issued on one context. -/
def calls_of (cr : cairo_ctx) (t : List traced) : List (Nat × cairo_call) :=
  (t.filter fun c => c.cr = cr).map fun c => (c.line, c.call)

/-- What a trace paints through one context. -/
def paints (cr : cairo_ctx) (t : List traced) : List painted :=
  cairo_run {} (calls_of cr t)

/-- The state a run of calls on one context ends in. -/
def cairo_exec (st : cairo_state) : List (Nat × cairo_call) → cairo_state
  | [] => st
  | c :: cs => cairo_exec (cairo_step st c.1 c.2).1 cs

/-! ## Observations on what `draw_image` paints -/

/-- The painting operations made by the call at one source line. -/
def painted_at (n : Nat) (ps : List painted) : List painted :=
  ps.filter fun p => p.line = n

/-- The texts shown by the `cairo_show_text` call at one source line. -/
def texts_at (n : Nat) (ps : List painted) : List String :=
  (painted_at n ps).filterMap fun p =>
    match p.kind with
    | .text s => some s
    | _ => none

/-- Line 195: the fill of the ring, with the source it is filled with. -/
def ring_fill (t : List traced) : List (paint_kind × cairo_source) :=
  (painted_at 195 (paints .ctx t)).map fun p => (p.kind, p.source)

/-- Line 218: the stroke of the ring, with the source it is stroked with. -/
def ring_stroke (t : List traced) : List (paint_kind × cairo_source) :=
  (painted_at 218 (paints .ctx t)).map fun p => (p.kind, p.source)

/-- Line 233: the time text drawn on the indicator. -/
def time_text_drawn (t : List traced) : List String :=
  texts_at 233 (paints .ctx t)

/-- Line 278: the status line drawn below the time. -/
def status_line_drawn (t : List traced) : List String :=
  texts_at 278 (paints .ctx t)

/-- The two-digit zero-padded decimal rendering of a number: a leading `0`
below ten, the plain decimal rendering from ten on. -/
def two_digits (n : Nat) : String :=
  if n < 10 then "0" ++ Nat.repr n else Nat.repr n

/-- An environment to evaluate `draw_image` on: two outputs, an idle session
locked 125 seconds ago, the indicator enabled, a key just pressed. -/
def sample_env : env :=
  { unlock_indicator := true
    modifier_string := some "Caps Lock"
    img := false
    tile := false
    color := fun _ => 'f'
    show_failed_attempts := true
    failed_attempts := 2
    lock_time := 1000
    login := some "bob"
    unlock_state := .STATE_KEY_ACTIVE
    auth_state := .STATE_AUTH_IDLE
    xr_resolutions := [⟨0, 0, 1920, 1080⟩, ⟨1920, 0, 1280, 1024⟩]
    last_resolution := (3200, 1080)
    AUTHORIZED_LOCK_TIME := 45
    dpi_value := 96
    curtime := 1125
    rand_value := 12345
    text_extents := fun _ sz s => ⟨1, -sz, sz * s.length / 2, sz, 0, 0⟩ }

/-- What one composite paints: the rectangle, filled with the surface placed at
its corner, through a context in its initial state but for the source. -/
def composite_paint (p : placement) : painted :=
  ⟨p.line + 2, .fill, .surface p.s p.x p.y, 2, 10, [.rectangle p.x p.y p.w p.h]⟩

/-- The composites `draw_image` makes, in order: the indicator, the modifier
panel when its block runs, the logout banner when its block runs. -/
def all_placements (g : env) : List placement :=
  indicator_placements g
    ++ (if g.auth_state = .STATE_AUTH_WRONG ∧ g.modifier_string ≠ none then
          modifier_placements g else [])
    ++ (if authorized_override g then banner_placements g else [])

/-- A context between two composites: no pending path, the initial line width
and font size. -/
def cairo_state.clean (st : cairo_state) : Prop :=
  st.path = [] ∧ st.line_width = 2 ∧ st.font_size = 10

/-- Whether a source is the given surface. -/
def cairo_source.is_surface (s : cairo_surface) : cairo_source → Bool
  | .surface s2 _ _ => decide (s2 = s)
  | _ => false

/-- The composites of one surface onto the returned background. -/
def composites_of (s : cairo_surface) (t : List traced) : List painted :=
  (paints .xcb_ctx t).filter fun p => p.source.is_surface s

/-- Line 451: the text drawn on the logout banner. -/
def banner_text_drawn (t : List traced) : List String :=
  texts_at 451 (paints .ctx_indicator t)

/-- The sample environment 3661 seconds after the lock. -/
def env_3661_seconds : env := { sample_env with curtime := 4661 }

/-- The sample environment 60 seconds after the lock. -/
def env_60_seconds : env := { sample_env with curtime := 1060 }

/-- The sample environment 45 minutes after the lock. -/
def env_45_minutes : env := { sample_env with curtime := 3700 }

/-- The sample environment with the indicator disabled, a wrong password just
entered while Caps Lock is on, 45 minutes after the lock. -/
def env_disabled_wrong : env :=
  { sample_env with
    unlock_indicator := false, auth_state := .STATE_AUTH_WRONG, curtime := 3700 }

/-- The sample environment with no known output and a root window of 100 by 50
pixels, smaller than the indicator. -/
def env_no_output : env :=
  { sample_env with xr_resolutions := [], last_resolution := (100, 50) }

/-! ## The periodic redraw timer (lines 509-525) -/

/-- The part of a libev `ev_periodic` watcher the code touches: whether the
watcher is active (started on a loop), its offset and its interval. -/
structure ev_periodic where
  active : Bool
  offset : ℚ
  interval : ℚ
  deriving DecidableEq

/-- The scheduler state. -/
structure tick_state where
  /-- Global `static struct ev_periodic *time_redraw_tick`: `none` for `NULL`,
  else the address of the watcher, an index into `heap`. -/
  time_redraw_tick : Option Nat
  /-- The `ev_periodic` blocks `calloc` has returned so far, by address. -/
  heap : List ev_periodic
  /-- The periodic watchers registered with the event loop, by address. -/
  periodics : List Nat
  deriving DecidableEq

/-- The state at program start: the static pointer is `NULL`, nothing is
allocated, the loop has no periodic watcher. -/
def tick_state.init : tick_state := ⟨none, [], []⟩

/-- The watcher at an address (a zeroed one where nothing is allocated). -/
def tick_state.watcher (s : tick_state) (w : Nat) : ev_periodic :=
  s.heap.getD w ⟨false, 0, 0⟩

/-- The libev call `ev_periodic_set(w, offset, interval, 0)`: stores the
schedule in the watcher. -/
def ev_periodic_set (s : tick_state) (w : Nat) (offset interval : ℚ) : tick_state :=
  { s with heap := s.heap.set w { s.watcher w with offset := offset, interval := interval } }

/-- The libev call `ev_periodic_init(w, cb, offset, interval, 0)`: marks the
watcher inactive and stores the schedule. -/
def ev_periodic_init (s : tick_state) (w : Nat) (offset interval : ℚ) : tick_state :=
  { s with heap := s.heap.set w ⟨false, offset, interval⟩ }

/-- The libev call `ev_periodic_start(loop, w)`: nothing on an active watcher,
else the watcher becomes active and is registered with the loop. -/
def ev_periodic_start (s : tick_state) (w : Nat) : tick_state :=
  if (s.watcher w).active then s
  else
    { s with
      heap := s.heap.set w { s.watcher w with active := true }
      periodics := s.periodics ++ [w] }

/-- The libev call `ev_periodic_stop(loop, w)`: nothing on an inactive watcher,
else the watcher is removed from the loop and becomes inactive. -/
def ev_periodic_stop (s : tick_state) (w : Nat) : tick_state :=
  if (s.watcher w).active then
    { s with
      heap := s.heap.set w { s.watcher w with active := false }
      periodics := s.periodics.erase w }
  else s

/-- The libev call `ev_periodic_again(loop, w)`: stops and restarts the
watcher. -/
def ev_periodic_again (s : tick_state) (w : Nat) : tick_state :=
  ev_periodic_start (ev_periodic_stop s w) w

/-- The function `start_time_redraw_tick(main_loop)` (lines 515-525);
`calloc_ok` tells whether the `calloc` of line 520, if reached, succeeds. -/
def start_time_redraw_tick (s : tick_state) (calloc_ok : Bool) : tick_state :=
  match s.time_redraw_tick with
  | some w => ev_periodic_again (ev_periodic_set s w 1.0 60.0) w
  | none =>
      if calloc_ok then
        let w := s.heap.length
        let s1 : tick_state :=
          { s with time_redraw_tick := some w, heap := s.heap ++ [⟨false, 0, 0⟩] }
        ev_periodic_start (ev_periodic_init s1 w 1.0 60.0) w
      else s

/-- The state after a series of calls of `start_time_redraw_tick` from program
start, one `calloc` outcome per call. -/
def run_ticks (outcomes : List Bool) : tick_state :=
  outcomes.foldl start_time_redraw_tick tick_state.init

/-- The state with the one timer allocated and running every 60 s at offset 1. -/
def tick_state.armed : tick_state := ⟨some 0, [⟨true, 1.0, 60.0⟩], [0]⟩

/-- The arcs of a path, each with its start and end angle. -/
def arcs_of (path : List cairo_call) : List (angle × angle) :=
  path.filterMap fun c =>
    match c with
    | .arc _ _ _ angle1 angle2 => some (angle1, angle2)
    | _ => none

/-- The arcs stroked, each with the source it is stroked in and its start and
end angle. -/
def stroked_arcs (ps : List painted) : List (cairo_source × angle × angle) :=
  ps.flatMap fun p =>
    match p.kind with
    | .stroke => (arcs_of p.path).map fun a => (p.source, a.1, a.2)
    | _ => []

/-- The highlight arcs drawn on the indicator: the stroked arcs that span
`M_PI / 3.0` from their start angle, each with its colour and start angle. -/
def highlight_arcs (t : List traced) : List (cairo_source × angle) :=
  ((stroked_arcs (paints .ctx t)).filter fun a => a.2.2 - a.2.1 = angle.div M_PI 3.0).map
    fun a => (a.1, a.2.1)

/-- A call that is not an arc spanning `M_PI / 3.0`. -/
def cairo_call.no_highlight (c : cairo_call) : Prop :=
  match c with
  | .arc _ _ _ angle1 angle2 => angle2 - angle1 ≠ angle.div M_PI 3.0
  | _ => True

/-- The sample environment after a wrong password, Caps Lock on, at 96 dpi
(scale factor 1). -/
def env_wrong : env := { sample_env with auth_state := .STATE_AUTH_WRONG }

/-- The environment `env_wrong` with no known output and a root window of
3200 by 1080 pixels. -/
def env_wrong_no_output : env := { env_wrong with xr_resolutions := [] }

/-- The environment `env_wrong` at 192 dpi (scale factor 2). -/
def env_wrong_hidpi : env := { env_wrong with dpi_value := 192 }

/-- A state holding one watcher that was stopped and scheduled otherwise
(offset 5, interval 30), the static pointer `time_redraw_tick` on it. -/
def tick_state.stopped : tick_state := ⟨some 0, [⟨false, 5, 30⟩], []⟩

/-! ## Theorems -/

/-! ### Traces and the cairo interpreter -/

theorem calls_of_append (cr : cairo_ctx) (a b : List traced) :
    calls_of cr (a ++ b) = calls_of cr a ++ calls_of cr b := by
  simp [calls_of]

theorem calls_of_calls_on_same (cr : cairo_ctx) (l : List (Nat × cairo_call)) :
    calls_of cr (calls_on cr l) = l := by
  induction l with
  | nil => rfl
  | cons c cs ih =>
    simp only [calls_of, calls_on] at ih ⊢
    simp [ih]

theorem calls_of_calls_on_ne (cr cr2 : cairo_ctx) (l : List (Nat × cairo_call))
    (h : cr2 ≠ cr) : calls_of cr (calls_on cr2 l) = [] := by
  induction l with
  | nil => rfl
  | cons c cs ih =>
    simp only [calls_of, calls_on] at ih ⊢
    simp [h, ih]

theorem cairo_run_cons (st : cairo_state) (c : Nat × cairo_call)
    (cs : List (Nat × cairo_call)) :
    cairo_run st (c :: cs) = (cairo_step st c.1 c.2).2 ++ cairo_run (cairo_step st c.1 c.2).1 cs :=
  rfl

theorem cairo_exec_cons (st : cairo_state) (c : Nat × cairo_call)
    (cs : List (Nat × cairo_call)) :
    cairo_exec st (c :: cs) = cairo_exec (cairo_step st c.1 c.2).1 cs :=
  rfl

theorem cairo_run_append (st : cairo_state) (a b : List (Nat × cairo_call)) :
    cairo_run st (a ++ b) = cairo_run st a ++ cairo_run (cairo_exec st a) b := by
  induction a generalizing st with
  | nil => rfl
  | cons c cs ih => simp [cairo_run, cairo_exec, ih]

theorem cairo_exec_append (st : cairo_state) (a b : List (Nat × cairo_call)) :
    cairo_exec st (a ++ b) = cairo_exec (cairo_exec st a) b := by
  induction a generalizing st with
  | nil => rfl
  | cons c cs ih => simp [cairo_exec, ih]

/-- Every painting operation comes from a call, and carries its line. -/
theorem cairo_run_line_mem (st : cairo_state) (l : List (Nat × cairo_call)) (p : painted)
    (hp : p ∈ cairo_run st l) : ∃ c ∈ l, c.1 = p.line := by
  induction l generalizing st with
  | nil => simp [cairo_run] at hp
  | cons c cs ih =>
    simp only [cairo_run, List.mem_append] at hp
    rcases hp with hp | hp
    · refine ⟨c, by simp, ?_⟩
      rcases c with ⟨n, call⟩
      cases call <;> simp [cairo_step] at hp <;> simp [hp]
    · obtain ⟨c2, hc2, h⟩ := ih _ hp
      exact ⟨c2, by simp [hc2], h⟩

theorem painted_at_run_nil (n : Nat) (st : cairo_state) (l : List (Nat × cairo_call))
    (h : ∀ c ∈ l, c.1 ≠ n) : painted_at n (cairo_run st l) = [] := by
  simp only [painted_at, List.filter_eq_nil_iff]
  intro p hp
  obtain ⟨c, hc, hcl⟩ := cairo_run_line_mem st l p hp
  simpa [← hcl] using h c hc

/-- What the call at line `n` paints is decided by the block holding line `n`
and the state that block starts in. -/
theorem painted_at_run_mid (n : Nat) (st : cairo_state) (a b c : List (Nat × cairo_call))
    (ha : ∀ e ∈ a, e.1 ≠ n) (hc : ∀ e ∈ c, e.1 ≠ n) :
    painted_at n (cairo_run st (a ++ b ++ c)) = painted_at n (cairo_run (cairo_exec st a) b) := by
  rw [cairo_run_append, cairo_run_append]
  have h1 := painted_at_run_nil n st a ha
  have h2 := painted_at_run_nil n (cairo_exec st (a ++ b)) c hc
  unfold painted_at at h1 h2 ⊢
  rw [List.filter_append, List.filter_append, h1, h2]
  simp

/-! ### The calls on the indicator context, block by block -/

theorem ring_block_lines (g : env) : ∀ e ∈ ring_block g, e.1 ≤ 218 := by
  unfold ring_block
  cases g.auth_state <;> cases g.unlock_state <;> cases authorized_override g <;> simp

theorem time_block_lines (g : env) : ∀ e ∈ time_block g, 223 ≤ e.1 ∧ e.1 ≤ 234 := by
  simp [time_block]

theorem status_block_lines (g : env) : ∀ e ∈ status_block g, 238 ≤ e.1 ∧ e.1 ≤ 279 := by
  unfold status_block
  split_ifs <;> simp

theorem login_block_lines (g : env) : ∀ e ∈ login_block g, 290 ≤ e.1 ∧ e.1 ≤ 292 := by
  unfold login_block
  split <;> simp

theorem caption_block_lines (g : env) : ∀ e ∈ caption_block g, 302 ≤ e.1 ∧ e.1 ≤ 305 := by
  simp [caption_block]

theorem separator_block_lines : ∀ e ∈ separator_block, 308 ≤ e.1 ∧ e.1 ≤ 318 := by
  simp [separator_block]

theorem highlight_block_lines (g : env) : ∀ e ∈ highlight_block g, 325 ≤ e.1 ∧ e.1 ≤ 358 := by
  unfold highlight_block
  split_ifs <;> simp

theorem calls_of_ctx_modifier_block (g : env) : calls_of .ctx (modifier_block g) = [] := by
  unfold modifier_block
  split
  · simp [calls_of_append, calls_of_calls_on_ne]
  · rfl

theorem calls_of_ctx_banner_block (g : env) : calls_of .ctx (banner_block g) = [] := by
  unfold banner_block
  split
  · simp [calls_of_append, calls_of_calls_on_ne]
  · rfl

theorem calls_of_ctx_draw_image (g : env) (resolution : Nat × Nat) :
    calls_of .ctx (draw_image g resolution)
      = (117, .image_surface_create .output
            (button_diameter_physical g) (button_diameter_physical g))
          :: (calls_of .ctx (indicator_block g)
              ++ [(478, .surface_destroy .output), (479, .destroy)]) := by
  simp [draw_image, calls_of_append, calls_of_ctx_modifier_block, calls_of_ctx_banner_block,
    composite_block, background_block, calls_of_calls_on_ne]
  simp [calls_of, setup_block, cleanup_block]

/-- With the indicator enabled, what the context of the indicator paints is
what its seven blocks paint, one after the other, from a new context. -/
theorem paints_ctx_enabled (g : env) (resolution : Nat × Nat)
    (hind : g.unlock_indicator = true) :
    paints .ctx (draw_image g resolution)
      = cairo_run {} (ring_block g ++ time_block g ++ status_block g ++ login_block g
          ++ caption_block g ++ separator_block ++ highlight_block g
          ++ [(478, .surface_destroy .output), (479, .destroy)]) := by
  rw [paints, calls_of_ctx_draw_image, indicator_block, if_pos hind, calls_of_calls_on_same,
    cairo_run_cons]
  simp [cairo_step]

/-- With the indicator disabled, nothing is painted on the indicator. -/
theorem paints_ctx_disabled (g : env) (resolution : Nat × Nat)
    (hind : g.unlock_indicator = false) :
    paints .ctx (draw_image g resolution) = [] := by
  rw [paints, calls_of_ctx_draw_image, indicator_block]
  simp [hind, calls_of, cairo_run, cairo_step]

theorem painted_at_ring (g : env) (resolution : Nat × Nat) (hind : g.unlock_indicator = true)
    (n : Nat) (hn : n < 223) :
    painted_at n (paints .ctx (draw_image g resolution))
      = painted_at n (cairo_run {} (ring_block g)) := by
  have h := painted_at_run_mid n {} [] (ring_block g)
    (time_block g ++ status_block g ++ login_block g ++ caption_block g
      ++ separator_block ++ highlight_block g
      ++ [(478, .surface_destroy .output), (479, .destroy)])
    (by simp) (by
      intro e he
      simp only [List.mem_append] at he
      rcases he with (((((he | he) | he) | he) | he) | he) | he
      · have := time_block_lines g e he; omega
      · have := status_block_lines g e he; omega
      · have := login_block_lines g e he; omega
      · have := caption_block_lines g e he; omega
      · have := separator_block_lines e he; omega
      · have := highlight_block_lines g e he; omega
      · simp at he
        rcases he with he | he <;> simp [he] <;> omega)
  rw [paints_ctx_enabled g resolution hind]
  simpa [List.append_assoc, cairo_exec] using h

theorem painted_at_time (g : env) (resolution : Nat × Nat) (hind : g.unlock_indicator = true)
    (n : Nat) (hn : 223 ≤ n ∧ n ≤ 234) :
    painted_at n (paints .ctx (draw_image g resolution))
      = painted_at n (cairo_run (cairo_exec {} (ring_block g)) (time_block g)) := by
  have h := painted_at_run_mid n {} (ring_block g) (time_block g)
    (status_block g ++ login_block g ++ caption_block g
      ++ separator_block ++ highlight_block g
      ++ [(478, .surface_destroy .output), (479, .destroy)])
    (by
      intro e he
      have := ring_block_lines g e he; omega) (by
      intro e he
      simp only [List.mem_append] at he
      rcases he with ((((he | he) | he) | he) | he) | he
      · have := status_block_lines g e he; omega
      · have := login_block_lines g e he; omega
      · have := caption_block_lines g e he; omega
      · have := separator_block_lines e he; omega
      · have := highlight_block_lines g e he; omega
      · simp at he
        rcases he with he | he <;> simp [he] <;> omega)
  rw [paints_ctx_enabled g resolution hind]
  simpa [List.append_assoc] using h

theorem painted_at_status (g : env) (resolution : Nat × Nat) (hind : g.unlock_indicator = true)
    (n : Nat) (hn : 238 ≤ n ∧ n ≤ 279) :
    painted_at n (paints .ctx (draw_image g resolution))
      = painted_at n
          (cairo_run (cairo_exec {} (ring_block g ++ time_block g)) (status_block g)) := by
  have h := painted_at_run_mid n {} (ring_block g ++ time_block g) (status_block g)
    (login_block g ++ caption_block g
      ++ separator_block ++ highlight_block g
      ++ [(478, .surface_destroy .output), (479, .destroy)])
    (by
      intro e he
      simp only [List.mem_append] at he
      rcases he with he | he
      · have := ring_block_lines g e he; omega
      · have := time_block_lines g e he; omega) (by
      intro e he
      simp only [List.mem_append] at he
      rcases he with (((he | he) | he) | he) | he
      · have := login_block_lines g e he; omega
      · have := caption_block_lines g e he; omega
      · have := separator_block_lines e he; omega
      · have := highlight_block_lines g e he; omega
      · simp at he
        rcases he with he | he <;> simp [he] <;> omega)
  rw [paints_ctx_enabled g resolution hind]
  simpa [List.append_assoc] using h

/-! ### Formatting -/

theorem snprintf_of_length_le (size : Nat) (s : String) (h : s.length ≤ size - 1) :
    snprintf size s = s := by
  unfold snprintf
  have : s.data.take (size - 1) = s.data := List.take_of_length_le h
  rw [this]

theorem toDigitsCore_length_pos (b f n : Nat) :
    0 < (Nat.toDigitsCore b (f + 1) n []).length := by
  simp only [Nat.toDigitsCore]
  split_ifs
  · simp
  · rw [Nat.toDigitsCore_lens_eq]
    omega

theorem repr_length_lt_ten (n : Nat) (h : n < 10) : (Nat.repr n).length = 1 := by
  interval_cases n <;> rfl

theorem repr_length_ge_two (n : Nat) (h : 10 ≤ n) : 2 ≤ (Nat.repr n).length := by
  have hdiv : n / 10 ≠ 0 := by omega
  obtain ⟨m, rfl⟩ : ∃ m, n = m + 1 := ⟨n - 1, by omega⟩
  simp only [Nat.repr, Nat.toDigits, String.length, List.asString]
  rw [Nat.toDigitsCore]
  simp only [hdiv, if_false]
  rw [Nat.toDigitsCore_lens_eq]
  have := toDigitsCore_length_pos 10 m ((m + 1) / 10)
  omega

theorem two_digits_length (n : Nat) (h : n < 10 ^ 20) : (two_digits n).length ≤ 20 := by
  unfold two_digits
  split_ifs with h10
  · rw [String.length_append, repr_length_lt_ten n h10]
    decide
  · exact Nat.repr_length n 20 (by decide) h

theorem fmt_lu2_eq (z : Int) (h0 : 0 ≤ z) (h : z < 18446744073709551616) :
    fmt_lu2 z = two_digits z.toNat := by
  have hu : to_ulong z = z.toNat := by
    unfold to_ulong
    rw [Int.emod_eq_of_lt h0 h]
  unfold fmt_lu2 two_digits
  simp only [hu]
  split_ifs with h10
  · rw [repr_length_lt_ten _ h10]
    rfl
  · have := repr_length_ge_two z.toNat (by omega)
    have h2 : 2 - (Nat.repr z.toNat).length = 0 := by omega
    rw [h2]
    simp only [List.replicate]
    show "" ++ _ = _
    simp

/-! ### Rounding to `double` -/

theorem round_half_even_intCast (z : Int) : round_half_even (z : ℚ) = z := by
  unfold round_half_even
  simp

theorem round_half_even_error (q : ℚ) : |(round_half_even q : ℚ) - q| ≤ 1 / 2 := by
  have h1 := Int.floor_le q
  have h2 := Int.lt_floor_add_one q
  unfold round_half_even
  rw [abs_le]
  split_ifs with ha hb hc
  · constructor <;> linarith
  · push_cast
    constructor <;> linarith
  · have : q - ⌊q⌋ = 1 / 2 := le_antisymm (not_lt.mp hb) (not_lt.mp ha)
    constructor <;> linarith
  · have : q - ⌊q⌋ = 1 / 2 := le_antisymm (not_lt.mp hb) (not_lt.mp ha)
    push_cast
    constructor <;> linarith

/-- The relative error of the conversion is at most `2 ^ (-53)`. -/
theorem to_double_error (q : ℚ) : |to_double q - q| ≤ |q| / 2 ^ 53 := by
  unfold to_double
  split_ifs with h0
  · simp [h0]
  · have hq : 0 < |q| := abs_pos.mpr h0
    have hlog := Int.zpow_log_le_self (b := 2) (by decide) hq
    have hu : (0 : ℚ) < 2 ^ (Int.log 2 |q| - 52) := by positivity
    have he := round_half_even_error (q / 2 ^ (Int.log 2 |q| - 52))
    have hsplit : (2 : ℚ) ^ (Int.log 2 |q| - 52) = 2 ^ Int.log 2 |q| / 2 ^ 52 := by
      rw [zpow_sub₀ (by norm_num)]
      norm_num
    have hrew : (round_half_even (q / 2 ^ (Int.log 2 |q| - 52)) : ℚ) * 2 ^ (Int.log 2 |q| - 52) - q
        = ((round_half_even (q / 2 ^ (Int.log 2 |q| - 52)) : ℚ) - q / 2 ^ (Int.log 2 |q| - 52))
            * 2 ^ (Int.log 2 |q| - 52) := by
      field_simp
    rw [hrew, abs_mul, abs_of_pos hu]
    calc |(round_half_even (q / 2 ^ (Int.log 2 |q| - 52)) : ℚ) - q / 2 ^ (Int.log 2 |q| - 52)|
          * 2 ^ (Int.log 2 |q| - 52)
        ≤ 1 / 2 * 2 ^ (Int.log 2 |q| - 52) := by
          exact mul_le_mul_of_nonneg_right he hu.le
      _ = 2 ^ Int.log 2 |q| / 2 ^ 53 := by
          rw [hsplit]
          ring
      _ ≤ |q| / 2 ^ 53 := by
          apply div_le_div_of_nonneg_right _ (by positivity)
          exact_mod_cast hlog

/-- Integers below `2 ^ 53` are `double` values. -/
theorem to_double_natCast (s : Nat) (hs : s < 2 ^ 53) : to_double (s : ℚ) = s := by
  unfold to_double
  split_ifs with h0
  · exact h0.symm
  · have hs0 : s ≠ 0 := by
      intro h
      apply h0
      simp [h]
    have habs : |(s : ℚ)| = (s : ℚ) := abs_of_nonneg (by positivity)
    have hlog : Int.log 2 |(s : ℚ)| = (Nat.log 2 s : Int) := by
      rw [habs]
      exact Int.log_natCast 2 s
    have hlt : Nat.log 2 s < 53 := Nat.log_lt_of_lt_pow hs0 hs
    obtain ⟨k, hk⟩ : ∃ k : Nat, (Nat.log 2 s : Int) - 52 = -(k : Int) :=
      ⟨52 - Nat.log 2 s, by omega⟩
    rw [hlog, hk, zpow_neg, zpow_natCast]
    have hcast : (s : ℚ) / (2 ^ k)⁻¹ = ((s * 2 ^ k : Nat) : Int) := by
      push_cast
      field_simp
    rw [hcast, round_half_even_intCast]
    push_cast
    field_simp

/-- The minute count: truncating the rounded quotient by 60 gives the integer
quotient, for a second count below `2 ^ 53`. -/
theorem c_trunc_to_double_div_60 (s : Nat) (hs : s < 2 ^ 53) :
    c_trunc (to_double ((s : ℚ) / 60)) = ((s / 60 : Nat) : Int) := by
  have hdm := Nat.div_add_mod s 60
  have hr : s % 60 < 60 := Nat.mod_lt _ (by decide)
  have hsq : (s : ℚ) = 60 * ((s / 60 : Nat) : ℚ) + ((s % 60 : Nat) : ℚ) := by
    exact_mod_cast hdm.symm
  by_cases hr0 : s % 60 = 0
  · have hx : (s : ℚ) / 60 = ((s / 60 : Nat) : ℚ) := by
      rw [hsq, hr0]
      push_cast
      field_simp
    rw [hx, to_double_natCast _ (by omega)]
    unfold c_trunc
    rw [if_pos (by positivity)]
    exact_mod_cast Int.floor_natCast (s / 60)
  · have herr := to_double_error ((s : ℚ) / 60)
    have hx0 : (0 : ℚ) ≤ (s : ℚ) / 60 := by positivity
    rw [abs_of_nonneg hx0, abs_le] at herr
    have hsb : (s : ℚ) < 2 ^ 53 := by exact_mod_cast hs
    have hsmall : (s : ℚ) / 60 / 2 ^ 53 < 1 / 60 := by
      rw [div_div, div_lt_div_iff₀ (by positivity) (by positivity)]
      linarith
    have hr1 : (1 : ℚ) ≤ ((s % 60 : Nat) : ℚ) := by
      have : 1 ≤ s % 60 := by omega
      exact_mod_cast this
    have hr59 : ((s % 60 : Nat) : ℚ) ≤ 59 := by
      have : s % 60 ≤ 59 := by omega
      exact_mod_cast this
    have hlo : ((s / 60 : Nat) : ℚ) ≤ to_double ((s : ℚ) / 60) := by
      linarith [herr.1]
    have hhi : to_double ((s : ℚ) / 60) < ((s / 60 : Nat) : ℚ) + 1 := by
      linarith [herr.2]
    unfold c_trunc
    rw [if_pos (le_trans (by positivity) hlo), Int.floor_eq_iff]
    constructor
    · exact_mod_cast hlo
    · exact_mod_cast hhi

/-- The minute count of line 151 is the whole number of minutes elapsed, for
every duration below `2 ^ 53` seconds. -/
theorem locked_time_of_elapsed (g : env) (s : Nat) (hs : g.curtime - g.lock_time = (s : Int))
    (hr : s < 2 ^ 53) :
    locked_time g = ((s / 60 : Nat) : Int) := by
  unfold locked_time
  rw [hs]
  have hc : (((s : Int)) : ℚ) = (s : ℚ) := by push_cast; rfl
  rw [hc, to_double_natCast s hr, c_trunc_to_double_div_60 s hr]

theorem int_log_two_eq (q : ℚ) (e : Int) (h1 : (2 : ℚ) ^ e ≤ q) (h2 : q < (2 : ℚ) ^ (e + 1)) :
    Int.log 2 q = e := by
  have hq : 0 < q := lt_of_lt_of_le (by positivity) h1
  have ha := (Int.zpow_le_iff_le_log (b := 2) (by decide) hq).1 (by exact_mod_cast h1)
  have hb := (Int.lt_zpow_iff_log_lt (b := 2) (by decide) hq).1 (by exact_mod_cast h2)
  omega

/-- The conversion, once the binary exponent is known. -/
theorem to_double_of_exponent (q : ℚ) (e : Int) (h1 : (2 : ℚ) ^ e ≤ q)
    (h2 : q < (2 : ℚ) ^ (e + 1)) :
    to_double q = (round_half_even (q / 2 ^ (e - 52)) : ℚ) * 2 ^ (e - 52) := by
  have hq : 0 < q := lt_of_lt_of_le (by positivity) h1
  unfold to_double
  rw [if_neg hq.ne', abs_of_pos hq, int_log_two_eq q e h1 h2]

theorem round_half_even_near (q : ℚ) (z : Int) (h1 : (z : ℚ) - 1 / 2 < q)
    (h2 : q < (z : ℚ) + 1 / 2) : round_half_even q = z := by
  unfold round_half_even
  by_cases hz : (z : ℚ) ≤ q
  · have hf : ⌊q⌋ = z := by
      rw [Int.floor_eq_iff]
      constructor <;> linarith
    rw [hf, if_pos (by linarith)]
  · have hf : ⌊q⌋ = z - 1 := by
      rw [Int.floor_eq_iff]
      push_cast
      constructor <;> linarith
    have h3 : ¬ q - ((z - 1 : Int) : ℚ) < 1 / 2 := by
      push_cast
      linarith
    have h4 : 1 / 2 < q - ((z - 1 : Int) : ℚ) := by
      push_cast
      linarith
    rw [hf, if_neg h3, if_pos h4]
    omega

theorem round_half_even_tie (z : Int) :
    round_half_even ((z : ℚ) + 1 / 2) = if z % 2 = 0 then z else z + 1 := by
  have hf : ⌊(z : ℚ) + 1 / 2⌋ = z := by
    rw [Int.floor_eq_iff]
    constructor <;> linarith
  unfold round_half_even
  rw [hf]
  norm_num

/-- From `2 ^ 53` seconds on the minute count follows the rounding of
`difftime`: `2 ^ 53 + 27` seconds are rounded to `2 ^ 53 + 28`, a multiple of
60, and count as 150119987579017 minutes, one more than the whole minutes
elapsed. -/
theorem locked_time_rounds (g : env)
    (hs : g.curtime - g.lock_time = 9007199254741019) :
    locked_time g = 150119987579017 ∧
    (9007199254741019 : Int) / 60 = 150119987579016 := by
  refine ⟨?_, by decide⟩
  have h1 : to_double ((9007199254741019 : Int) : ℚ) = ((9007199254741020 : Nat) : ℚ) := by
    rw [to_double_of_exponent _ 53 (by norm_num) (by norm_num)]
    have hq : (((9007199254741019 : Int) : ℚ)) / 2 ^ ((53 : Int) - 52)
        = ((4503599627370509 : Int) : ℚ) + 1 / 2 := by norm_num
    rw [hq, round_half_even_tie]
    norm_num
  have h2 : ((9007199254741020 : Nat) : ℚ) / 60 = ((150119987579017 : Nat) : ℚ) := by norm_num
  unfold locked_time
  rw [hs, h1, h2, to_double_natCast _ (by norm_num)]
  unfold c_trunc
  rw [if_pos (by positivity)]
  exact_mod_cast Int.floor_natCast 150119987579017

/-- At 400 dpi the `double` product `scaling_factor * 450` lies just above
1875 and the banner is 1876 pixels wide, one more than the ceiling of the exact
product. -/
theorem banner_w_scaled_400_dpi (g : env) (h : g.dpi_value = 400) :
    banner_w_scaled g = 1876 ∧ ⌈scaling_factor g * 450⌉ = 1875 := by
  constructor
  · have h1 : to_double ((400 : Int) : ℚ) = 400 := by
      have := to_double_natCast 400 (by norm_num)
      exact_mod_cast this
    have h2 : to_double ((400 : ℚ) / 96) = (4691249611844267 : Int) * 2 ^ ((2 : Int) - 52) := by
      rw [to_double_of_exponent _ 2 (by norm_num) (by norm_num)]
      congr 2
      apply round_half_even_near <;> norm_num
    have h3 : to_double ((4691249611844267 : Int) * 2 ^ ((2 : Int) - 52) * ((450 : Int) : ℚ))
        = (8246337208320001 : Int) * 2 ^ ((10 : Int) - 52) := by
      rw [to_double_of_exponent _ 10 (by norm_num) (by norm_num)]
      congr 2
      apply round_half_even_near <;> norm_num
    unfold banner_w_scaled scaling_factor_double
    rw [h, h1, h2, h3, Int.ceil_eq_iff]
    constructor <;> norm_num
  · unfold scaling_factor
    rw [h, Int.ceil_eq_iff]
    constructor <;> norm_num

theorem time_text_of_elapsed (g : env) (s : Nat) (hs : g.curtime - g.lock_time = (s : Int))
    (hr : s < 2 ^ 53) :
    time_text g = two_digits (s / 60 / 60) ++ ":" ++ two_digits (s / 60 % 60) := by
  have hlt := locked_time_of_elapsed g s hs hr
  have hd : Int.tdiv (locked_time g) 60 = ((s / 60 / 60 : Nat) : Int) := by
    rw [hlt, Int.tdiv_eq_ediv (by positivity) (by decide)]
    norm_cast
  have hm : Int.tmod (locked_time g) 60 = ((s / 60 % 60 : Nat) : Int) := by
    rw [hlt, Int.tmod_eq_emod (by positivity) (by decide)]
    norm_cast
  have h1 : s / 60 / 60 < 10 ^ 20 := by omega
  have h2 : s / 60 % 60 < 10 ^ 20 := by omega
  unfold time_text
  rw [hd, hm, fmt_lu2_eq _ (by positivity) (by omega), fmt_lu2_eq _ (by positivity) (by omega)]
  simp only [Int.toNat_ofNat]
  apply snprintf_of_length_le
  have := two_digits_length _ h1
  have := two_digits_length _ h2
  simp only [String.length_append, INFO_MAXLENGTH]
  have : ":".length = 1 := rfl
  omega

/-- What line 233 shows is the time text. -/
theorem time_text_drawn_eq (g : env) (resolution : Nat × Nat)
    (hind : g.unlock_indicator = true) :
    time_text_drawn (draw_image g resolution) = [time_text g] := by
  unfold time_text_drawn texts_at
  rw [painted_at_time g resolution hind 233 (by decide)]
  simp [time_block, cairo_run, cairo_step, painted_at]

/-! ### The calls on the background context -/

theorem cairo_run_composites (ps : List placement) (st : cairo_state) (h : st.clean) :
    cairo_run st (ps.flatMap composite) = ps.map composite_paint
      ∧ (cairo_exec st (ps.flatMap composite)).clean := by
  induction ps generalizing st with
  | nil => exact ⟨rfl, h⟩
  | cons p ps ih =>
    obtain ⟨h1, h2, h3⟩ := h
    have hst : (cairo_exec st (composite p)).clean := by
      simp [composite, cairo_exec, cairo_step, cairo_state.clean, h2, h3]
    have hrun : cairo_run st (composite p) = [composite_paint p] := by
      simp [composite, cairo_run, cairo_step, composite_paint, h1, h2, h3]
    obtain ⟨ih1, ih2⟩ := ih _ hst
    simp only [List.flatMap_cons, List.map_cons, cairo_run_append, cairo_exec_append]
    exact ⟨by rw [hrun, ih1]; rfl, ih2⟩

theorem background_clean (g : env) (resolution : Nat × Nat) :
    (cairo_exec {} (calls_of .xcb_ctx (background_block g resolution))).clean := by
  unfold background_block
  rw [calls_of_calls_on_same]
  cases g.img <;> cases g.tile <;> simp [cairo_exec, cairo_step, cairo_state.clean]

theorem calls_of_xcb_modifier_block (g : env) :
    calls_of .xcb_ctx (modifier_block g)
      = (if g.auth_state = .STATE_AUTH_WRONG ∧ g.modifier_string ≠ none then
          modifier_placements g else []).flatMap composite := by
  unfold modifier_block
  split
  · next h1 h2 =>
    simp [calls_of_append, calls_of_calls_on_ne, calls_of_calls_on_same, h1, h2]
  · next hne =>
    have : ¬ (g.auth_state = .STATE_AUTH_WRONG ∧ g.modifier_string ≠ none) := by
      rintro ⟨h1, h2⟩
      cases hm : g.modifier_string with
      | none => exact h2 hm
      | some m => exact hne m h1 hm
    simp [this, calls_of]

theorem calls_of_xcb_banner_block (g : env) :
    calls_of .xcb_ctx (banner_block g)
      = (if authorized_override g then banner_placements g else []).flatMap composite := by
  unfold banner_block
  split
  · simp [calls_of_append, calls_of_calls_on_ne, calls_of_calls_on_same]
  · simp [calls_of]

theorem calls_of_xcb_indicator_block (g : env) : calls_of .xcb_ctx (indicator_block g) = [] := by
  unfold indicator_block
  split
  · simp [calls_of_calls_on_ne]
  · rfl

theorem calls_of_xcb_draw_image (g : env) (resolution : Nat × Nat) :
    calls_of .xcb_ctx (draw_image g resolution)
      = [(120, .xcb_surface_create
            (int_of_uint32 (to_uint32 resolution.1)) (int_of_uint32 (to_uint32 resolution.2)))]
          ++ calls_of .xcb_ctx (background_block g resolution)
          ++ (all_placements g).flatMap composite
          ++ [(477, .surface_destroy .xcb_output), (480, .destroy)] := by
  simp only [draw_image, calls_of_append, calls_of_xcb_modifier_block, calls_of_xcb_banner_block,
    calls_of_xcb_indicator_block, composite_block, calls_of_calls_on_same, all_placements,
    List.flatMap_append]
  simp [calls_of, setup_block, cleanup_block]

/-- What is painted onto the returned surface: the background, then one filled
rectangle per composite. -/
theorem paints_xcb (g : env) (resolution : Nat × Nat) :
    paints .xcb_ctx (draw_image g resolution)
      = paints .xcb_ctx (background_block g resolution)
          ++ (all_placements g).map composite_paint := by
  have hbg := background_clean g resolution
  obtain ⟨h1, -⟩ := cairo_run_composites (all_placements g) _ hbg
  unfold paints
  rw [calls_of_xcb_draw_image]
  simp only [cairo_run_append, cairo_exec_append, List.singleton_append, cairo_run_cons,
    cairo_exec_cons, cairo_step, List.nil_append]
  rw [h1]
  simp [cairo_run]

theorem background_not_surface (g : env) (resolution : Nat × Nat) (s : cairo_surface)
    (hs : s ≠ .img) :
    (paints .xcb_ctx (background_block g resolution)).filter
      (fun p => p.source.is_surface s) = [] := by
  unfold paints background_block
  rw [calls_of_calls_on_same]
  cases g.img <;> cases g.tile <;>
    simp [cairo_run, cairo_step, cairo_source.is_surface, hs, Ne.symm hs]

theorem composites_of_eq (g : env) (resolution : Nat × Nat) (s : cairo_surface)
    (hs : s ≠ .img) :
    composites_of s (draw_image g resolution)
      = ((all_placements g).filter fun p => p.s = s).map composite_paint := by
  unfold composites_of
  rw [paints_xcb, List.filter_append, background_not_surface g resolution s hs, List.nil_append,
    List.filter_map]
  congr 1

/-! ### Ring colours -/

/-- C1: with the indicator enabled, the fill and the stroke of the ring follow
the precedence authorized override, then `auth_state`, then `unlock_state`:
once `locked_time >= AUTHORIZED_LOCK_TIME` the fill is `(250/255, 0, 0, 0.75)`
and the stroke `(125/255, 51/255, 0)` whatever the two states are; otherwise
Verify and Lock give the blue pair, Wrong and LockFailed the red pair, whatever
`unlock_state` is; and for Idle, NothingToDelete gives the red pair and every
other `unlock_state` black at 0.75 with the grey `160/255` stroke. -/
theorem ring_colour_precedence (g : env) (resolution : Nat × Nat)
    (hind : g.unlock_indicator = true) :
    (g.AUTHORIZED_LOCK_TIME ≤ locked_time g →
      ring_fill (draw_image g resolution) = [(.fill, .rgba (250.0 / 255) 0 0 0.75)] ∧
      ring_stroke (draw_image g resolution)
        = [(.stroke, .rgb (125.0 / 255) (51.0 / 255) 0)]) ∧
    (locked_time g < g.AUTHORIZED_LOCK_TIME →
      ((g.auth_state = .STATE_AUTH_VERIFY ∨ g.auth_state = .STATE_AUTH_LOCK) →
        ring_fill (draw_image g resolution)
          = [(.fill, .rgba 0 (114.0 / 255) (255.0 / 255) 0.75)] ∧
        ring_stroke (draw_image g resolution)
          = [(.stroke, .rgb (51.0 / 255) 0 (250.0 / 255))]) ∧
      ((g.auth_state = .STATE_AUTH_WRONG ∨ g.auth_state = .STATE_I3LOCK_LOCK_FAILED) →
        ring_fill (draw_image g resolution) = [(.fill, .rgba (250.0 / 255) 0 0 0.75)] ∧
        ring_stroke (draw_image g resolution)
          = [(.stroke, .rgb (125.0 / 255) (51.0 / 255) 0)]) ∧
      (g.auth_state = .STATE_AUTH_IDLE →
        (g.unlock_state = .STATE_NOTHING_TO_DELETE →
          ring_fill (draw_image g resolution) = [(.fill, .rgba (250.0 / 255) 0 0 0.75)] ∧
          ring_stroke (draw_image g resolution)
            = [(.stroke, .rgb (125.0 / 255) (51.0 / 255) 0)]) ∧
        (g.unlock_state ≠ .STATE_NOTHING_TO_DELETE →
          ring_fill (draw_image g resolution) = [(.fill, .rgba 0 0 0 0.75)] ∧
          ring_stroke (draw_image g resolution)
            = [(.stroke, .rgb (160.0 / 255) (160.0 / 255) (160.0 / 255))]))) := by
  simp only [ring_fill, ring_stroke, painted_at_ring g resolution hind _ (by decide : 195 < 223),
    painted_at_ring g resolution hind _ (by decide : 218 < 223)]
  refine ⟨fun h => ?_, fun h => ⟨?_, ?_, ?_⟩⟩
  · have ho : authorized_override g = true := by simpa [authorized_override] using h
    cases ha : g.auth_state <;> cases hu : g.unlock_state <;>
      simp [ring_block, cairo_run, cairo_step, painted_at, ho, ha, hu]
  · have ho : authorized_override g = false := by simpa [authorized_override] using h
    rintro (ha | ha) <;>
      simp [ring_block, cairo_run, cairo_step, painted_at, ho, ha]
  · have ho : authorized_override g = false := by simpa [authorized_override] using h
    rintro (ha | ha) <;>
      simp [ring_block, cairo_run, cairo_step, painted_at, ho, ha]
  · have ho : authorized_override g = false := by simpa [authorized_override] using h
    intro ha
    refine ⟨fun hu => ?_, fun hu => ?_⟩ <;>
      simp [ring_block, cairo_run, cairo_step, painted_at, ho, ha, hu]

theorem sample_env_locked_time : locked_time sample_env = 2 :=
  locked_time_of_elapsed sample_env 125 (by decide) (by norm_num)

/-- C1 at `sample_env`: idle, a key active, two minutes locked with a threshold
of 45: black fill at 0.75, grey stroke. -/
theorem ring_colour_precedence_witness :
    sample_env.unlock_indicator = true ∧
    locked_time sample_env < sample_env.AUTHORIZED_LOCK_TIME ∧
    ring_fill (draw_image sample_env (3200, 1080)) = [(.fill, .rgba 0 0 0 0.75)] ∧
    ring_stroke (draw_image sample_env (3200, 1080))
      = [(.stroke, .rgb (160.0 / 255) (160.0 / 255) (160.0 / 255))] :=
  have h : locked_time sample_env < sample_env.AUTHORIZED_LOCK_TIME := by
    rw [sample_env_locked_time]
    decide
  ⟨rfl, h,
    (((ring_colour_precedence sample_env (3200, 1080) rfl).2 h).2.2 rfl).2 (by decide)⟩

/-! ### The time text -/

/-- C2, as the code has it: with the indicator enabled and `s` seconds elapsed
since `lock_time` (`0 <= s < 2 ^ 53`, where `difftime` and the division by
60 in `double` give the exact minute count), the time text is the two-digit
zero-padded value of `floor(m / 60)`, a colon, then the two-digit zero-padded
value of `m mod 60`, where `m = floor(s / 60)` is the number of whole minutes
elapsed: hours and minutes, the hours not capped. -/
theorem time_text_hours_minutes (g : env) (resolution : Nat × Nat) (s : Nat)
    (hind : g.unlock_indicator = true) (hs : g.curtime - g.lock_time = (s : Int))
    (hr : s < 2 ^ 53) :
    time_text_drawn (draw_image g resolution)
      = [two_digits (s / 60 / 60) ++ ":" ++ two_digits (s / 60 % 60)] := by
  rw [time_text_drawn_eq g resolution hind, time_text_of_elapsed g s hs hr]

/-- C2 at `sample_env`, 125 seconds after the lock, where the text is `00:02`,
and at `env_3661_seconds`, where it is `01:01`. -/
theorem time_text_hours_minutes_witness :
    (sample_env.unlock_indicator = true ∧
      sample_env.curtime - sample_env.lock_time = ((125 : Nat) : Int) ∧
      125 < 2 ^ 53 ∧
      time_text_drawn (draw_image sample_env (3200, 1080)) = ["00:02"]) ∧
    (env_3661_seconds.unlock_indicator = true ∧
      env_3661_seconds.curtime - env_3661_seconds.lock_time = ((3661 : Nat) : Int) ∧
      3661 < 2 ^ 53 ∧
      time_text_drawn (draw_image env_3661_seconds (3200, 1080)) = ["01:01"]) :=
  ⟨⟨rfl, by decide, by norm_num,
      (time_text_hours_minutes sample_env (3200, 1080) 125 rfl (by decide) (by norm_num)).trans
        (by decide)⟩,
    ⟨rfl, by decide, by norm_num,
      (time_text_hours_minutes env_3661_seconds (3200, 1080) 3661 rfl (by decide)
        (by norm_num)).trans (by decide)⟩⟩

/-- C2 as stated fails: 125 seconds after the lock the time text is `00:02`,
not `02:05`. -/
theorem time_text_125_seconds :
    sample_env.curtime - sample_env.lock_time = 125 ∧
    time_text_drawn (draw_image sample_env (3200, 1080)) = ["00:02"] ∧
    time_text_drawn (draw_image sample_env (3200, 1080))
      ≠ [two_digits (125 / 60) ++ ":" ++ two_digits (125 % 60)] := by
  have h : time_text_drawn (draw_image sample_env (3200, 1080)) = ["00:02"] := by
    rw [time_text_drawn_eq sample_env (3200, 1080) rfl,
      time_text_of_elapsed sample_env 125 (by decide) (by norm_num)]
    decide
  refine ⟨by decide, h, ?_⟩
  rw [h]
  decide

/-! ### The composites, surface by surface -/

theorem indicator_placements_surface (g : env) :
    ∀ p ∈ indicator_placements g, p.s = .output := by
  unfold indicator_placements
  split_ifs <;> simp

theorem modifier_placements_surface (g : env) :
    ∀ p ∈ modifier_placements g, p.s = .output_modifier := by
  unfold modifier_placements
  split_ifs <;> simp

theorem banner_placements_surface (g : env) :
    ∀ p ∈ banner_placements g, p.s = .output_indicator := by
  unfold banner_placements
  split_ifs <;> simp

theorem filter_surface_same (l : List placement) (s : cairo_surface)
    (h : ∀ p ∈ l, p.s = s) : (l.filter fun p => p.s = s) = l := by
  simp only [List.filter_eq_self]
  intro p hp
  simp [h p hp]

theorem filter_surface_other (l : List placement) (s s2 : cairo_surface)
    (h : ∀ p ∈ l, p.s = s2) (hne : s2 ≠ s) : (l.filter fun p => p.s = s) = [] := by
  simp only [List.filter_eq_nil_iff]
  intro p hp
  simp [h p hp, hne]

theorem all_placements_output (g : env) :
    ((all_placements g).filter fun p => p.s = .output) = indicator_placements g := by
  unfold all_placements
  rw [List.filter_append, List.filter_append,
    filter_surface_same _ _ (indicator_placements_surface g)]
  have h1 : ((if g.auth_state = .STATE_AUTH_WRONG ∧ g.modifier_string ≠ none then
      modifier_placements g else []).filter fun p => p.s = .output) = [] := by
    split_ifs
    · exact filter_surface_other _ _ _ (modifier_placements_surface g) (by decide)
    · rfl
  have h2 : ((if authorized_override g then banner_placements g else []).filter
      fun p => p.s = .output) = [] := by
    split_ifs
    · exact filter_surface_other _ _ _ (banner_placements_surface g) (by decide)
    · rfl
  rw [h1, h2]
  simp

theorem all_placements_modifier (g : env) :
    ((all_placements g).filter fun p => p.s = .output_modifier)
      = if g.auth_state = .STATE_AUTH_WRONG ∧ g.modifier_string ≠ none then
          modifier_placements g else [] := by
  unfold all_placements
  rw [List.filter_append, List.filter_append,
    filter_surface_other _ _ _ (indicator_placements_surface g) (by decide)]
  have h2 : ((if authorized_override g then banner_placements g else []).filter
      fun p => p.s = .output_modifier) = [] := by
    split_ifs
    · exact filter_surface_other _ _ _ (banner_placements_surface g) (by decide)
    · rfl
  rw [h2]
  split_ifs
  · simp [filter_surface_same _ _ (modifier_placements_surface g)]
  · simp

theorem all_placements_banner (g : env) :
    ((all_placements g).filter fun p => p.s = .output_indicator)
      = if authorized_override g then banner_placements g else [] := by
  unfold all_placements
  rw [List.filter_append, List.filter_append,
    filter_surface_other _ _ _ (indicator_placements_surface g) (by decide)]
  have h1 : ((if g.auth_state = .STATE_AUTH_WRONG ∧ g.modifier_string ≠ none then
      modifier_placements g else []).filter fun p => p.s = .output_indicator) = [] := by
    split_ifs
    · exact filter_surface_other _ _ _ (modifier_placements_surface g) (by decide)
    · rfl
  rw [h1]
  split_ifs
  · simp [filter_surface_same _ _ (banner_placements_surface g)]
  · simp

theorem xr_screens_pos_iff (g : env) : 0 < g.xr_screens ↔ g.xr_resolutions ≠ [] := by
  unfold env.xr_screens
  cases g.xr_resolutions <;> simp

theorem banner_placements_ne_nil (g : env) : banner_placements g ≠ [] := by
  unfold banner_placements
  split_ifs with h
  · simpa using (xr_screens_pos_iff g).1 h
  · simp

theorem modifier_placements_ne_nil (g : env) : modifier_placements g ≠ [] := by
  unfold modifier_placements
  split_ifs with h
  · simpa using (xr_screens_pos_iff g).1 h
  · simp

/-- The logout banner is composited exactly when the override holds. -/
theorem banner_composited_iff (g : env) (resolution : Nat × Nat) :
    composites_of .output_indicator (draw_image g resolution) ≠ []
      ↔ authorized_override g = true := by
  rw [composites_of_eq g resolution _ (by decide), all_placements_banner]
  split_ifs with h
  · simpa [h] using banner_placements_ne_nil g
  · simp [h]

/-- The modifier panel is composited exactly when its block runs. -/
theorem modifier_composited_iff (g : env) (resolution : Nat × Nat) :
    composites_of .output_modifier (draw_image g resolution) ≠ []
      ↔ (g.auth_state = .STATE_AUTH_WRONG ∧ g.modifier_string ≠ none) := by
  rw [composites_of_eq g resolution _ (by decide), all_placements_modifier]
  split_ifs with h
  · simpa [h] using modifier_placements_ne_nil g
  · simp [h]

theorem calls_of_banner_ctx_modifier_block (g : env) :
    calls_of .ctx_indicator (modifier_block g) = [] := by
  unfold modifier_block
  split
  · simp [calls_of_append, calls_of_calls_on_ne]
  · rfl

theorem calls_of_banner_ctx_indicator_block (g : env) :
    calls_of .ctx_indicator (indicator_block g) = [] := by
  unfold indicator_block
  split
  · simp [calls_of_calls_on_ne]
  · rfl

/-- The text on the banner, when the banner block runs. -/
theorem banner_text_drawn_eq (g : env) (resolution : Nat × Nat)
    (h : authorized_override g = true) :
    banner_text_drawn (draw_image g resolution) = [banner_text] := by
  have hcalls : calls_of .ctx_indicator (draw_image g resolution)
      = calls_of .ctx_indicator (banner_block g) := by
    simp only [draw_image, calls_of_append, calls_of_banner_ctx_modifier_block,
      calls_of_banner_ctx_indicator_block, composite_block, background_block,
      calls_of_calls_on_ne _ _ _ (by decide : cairo_ctx.xcb_ctx ≠ cairo_ctx.ctx_indicator)]
    simp [calls_of, setup_block, cleanup_block]
  unfold banner_text_drawn texts_at paints
  rw [hcalls, banner_block, if_pos h]
  simp only [calls_of_append, calls_of_calls_on_same,
    calls_of_calls_on_ne _ _ _ (by decide : cairo_ctx.xcb_ctx ≠ cairo_ctx.ctx_indicator)]
  simp [cairo_run, cairo_step, painted_at, banner_text]

/-! ### The logout banner -/

/-- C3, as the code has it: the logout banner is composited if and only if
`lockedDurationMinutes >= AUTHORIZED_LOCK_TIME` (the minute count itself, not
multiplied by 60), where `lockedDurationMinutes` is the minute count of line
151, the whole number of minutes elapsed since `lock_time` for every duration
below `2 ^ 53` seconds; and whenever the banner is composited its text is the
fixed string `Super + Shift + E to logout`. -/
theorem banner_iff_minutes_reach_threshold (g : env) (resolution : Nat × Nat) :
    (composites_of .output_indicator (draw_image g resolution) ≠ []
      ↔ g.AUTHORIZED_LOCK_TIME ≤ locked_time g) ∧
    (∀ s : Nat, s < 2 ^ 53 → g.curtime - g.lock_time = (s : Int) →
      locked_time g = ((s / 60 : Nat) : Int)) ∧
    (composites_of .output_indicator (draw_image g resolution) ≠ [] →
      banner_text_drawn (draw_image g resolution) = ["Super + Shift + E to logout"]) := by
  refine ⟨?_, fun s hr hs => locked_time_of_elapsed g s hs hr, fun h => ?_⟩
  · rw [banner_composited_iff]
    simp [authorized_override]
  · exact banner_text_drawn_eq g resolution ((banner_composited_iff g resolution).1 h)

theorem env_45_minutes_locked_time : locked_time env_45_minutes = 45 :=
  locked_time_of_elapsed env_45_minutes 2700 (by decide) (by norm_num)

/-- C3 at `env_45_minutes`: 2700 seconds after the lock, with a threshold of 45,
the banner is composited and carries the logout hint. -/
theorem banner_iff_minutes_reach_threshold_witness :
    env_45_minutes.curtime - env_45_minutes.lock_time = ((2700 : Nat) : Int) ∧
    locked_time env_45_minutes = ((2700 / 60 : Nat) : Int) ∧
    env_45_minutes.AUTHORIZED_LOCK_TIME ≤ locked_time env_45_minutes ∧
    composites_of .output_indicator (draw_image env_45_minutes (3200, 1080)) ≠ [] ∧
    banner_text_drawn (draw_image env_45_minutes (3200, 1080))
      = ["Super + Shift + E to logout"] :=
  have h := banner_iff_minutes_reach_threshold env_45_minutes (3200, 1080)
  have hlt : env_45_minutes.AUTHORIZED_LOCK_TIME ≤ locked_time env_45_minutes := by
    rw [env_45_minutes_locked_time]
    decide
  ⟨by decide, h.2.1 2700 (by norm_num) (by decide), hlt, h.1.2 hlt, h.2.2 (h.1.2 hlt)⟩

theorem env_60_seconds_locked_time : locked_time env_60_seconds = 1 :=
  locked_time_of_elapsed env_60_seconds 60 (by decide) (by norm_num)

/-- C3 as stated fails: 60 seconds after the lock, with a threshold of 45,
`lockedDurationMinutes * 60 = 60 >= 45` and yet no banner is composited. -/
theorem banner_absent_at_60_seconds :
    env_60_seconds.curtime - env_60_seconds.lock_time = 60 ∧
    locked_time env_60_seconds = 1 ∧
    env_60_seconds.AUTHORIZED_LOCK_TIME ≤ locked_time env_60_seconds * 60 ∧
    composites_of .output_indicator (draw_image env_60_seconds (3200, 1080)) = [] := by
  refine ⟨by decide, env_60_seconds_locked_time, ?_, ?_⟩
  · rw [env_60_seconds_locked_time]
    decide
  · have h : authorized_override env_60_seconds = false := by
      simp only [authorized_override, env_60_seconds_locked_time]
      decide
    have := (banner_composited_iff env_60_seconds (3200, 1080)).not
    simpa [h] using this

/-- The failure of C3 as stated does not hang on the value 45: whatever the
threshold, from 2 up to `2 ^ 52`, there is a duration whose minute count times 60 reaches
the threshold while no banner is composited. -/
theorem banner_condition_differs (g : env) (resolution : Nat × Nat)
    (hA : 2 ≤ g.AUTHORIZED_LOCK_TIME) (hA2 : g.AUTHORIZED_LOCK_TIME ≤ 2 ^ 52) :
    ∃ s : Nat,
      g.AUTHORIZED_LOCK_TIME ≤ ((s / 60 : Nat) : Int) * 60 ∧
      composites_of .output_indicator
        (draw_image { g with curtime := g.lock_time + (s : Int) } resolution) = [] := by
  obtain ⟨a, ha⟩ : ∃ a : Nat, g.AUTHORIZED_LOCK_TIME = (a : Int) :=
    ⟨g.AUTHORIZED_LOCK_TIME.toNat, by omega⟩
  refine ⟨60 * ((a + 59) / 60), ?_, ?_⟩
  · rw [ha]
    have : 60 * ((a + 59) / 60) / 60 = (a + 59) / 60 := by omega
    rw [this]
    have h2 : a ≤ (a + 59) / 60 * 60 := by omega
    exact_mod_cast h2
  · have hlt := locked_time_of_elapsed
      { g with curtime := g.lock_time + ((60 * ((a + 59) / 60) : Nat) : Int) }
      (60 * ((a + 59) / 60)) (by simp) (by
        have : (a : Int) ≤ 2 ^ 52 := ha ▸ hA2
        have h3 : a ≤ 2 ^ 52 := by exact_mod_cast this
        have h4 : (2 : Nat) ^ 53 = 2 * 2 ^ 52 := by norm_num
        omega)
    have hover : authorized_override
        { g with curtime := g.lock_time + ((60 * ((a + 59) / 60) : Nat) : Int) } = false := by
      simp only [authorized_override, hlt, decide_eq_false_iff_not, not_le]
      show ((60 * ((a + 59) / 60) / 60 : Nat) : Int) < g.AUTHORIZED_LOCK_TIME
      rw [ha]
      have h2 : 2 ≤ a := by omega
      have : 60 * ((a + 59) / 60) / 60 < a := by omega
      exact_mod_cast this
    have := (banner_composited_iff
      { g with curtime := g.lock_time + ((60 * ((a + 59) / 60) : Nat) : Int) } resolution).not
    exact not_not.mp (this.mpr (by rw [hover]; decide))

/-! ### The status line -/

/-- What line 278 shows is the status text, when there is one. -/
theorem status_line_drawn_eq (g : env) (resolution : Nat × Nat)
    (hind : g.unlock_indicator = true) :
    status_line_drawn (draw_image g resolution)
      = if (status_text g).2 then [(status_text g).1] else [] := by
  unfold status_line_drawn texts_at
  rw [painted_at_status g resolution hind 278 (by decide)]
  unfold status_block
  split_ifs <;> simp [cairo_run, cairo_step, painted_at]

theorem status_line_drawn_disabled (g : env) (resolution : Nat × Nat)
    (hind : g.unlock_indicator = false) :
    status_line_drawn (draw_image g resolution) = [] := by
  unfold status_line_drawn
  rw [paints_ctx_disabled g resolution hind]
  rfl

/-- C4: `draw_image` draws at most one status line, and with the indicator
enabled it is chosen by priority: Verify, Lock, Wrong and LockFailed give
their fixed text whatever `unlock_state` and the failed-attempt count are;
otherwise NothingToDelete gives `No input` whatever the count is; otherwise
the failed-attempt text is drawn when the display is enabled and the count is
positive; otherwise no status line is drawn. -/
theorem status_line_priority (g : env) (resolution : Nat × Nat) :
    (status_line_drawn (draw_image g resolution)).length ≤ 1 ∧
    (g.unlock_indicator = true →
      (g.auth_state = .STATE_AUTH_VERIFY →
        status_line_drawn (draw_image g resolution) = ["Verifying..."]) ∧
      (g.auth_state = .STATE_AUTH_LOCK →
        status_line_drawn (draw_image g resolution) = ["Locking..."]) ∧
      (g.auth_state = .STATE_AUTH_WRONG →
        status_line_drawn (draw_image g resolution) = ["Wrong!"]) ∧
      (g.auth_state = .STATE_I3LOCK_LOCK_FAILED →
        status_line_drawn (draw_image g resolution) = ["Lock failed!"]) ∧
      (g.auth_state = .STATE_AUTH_IDLE →
        (g.unlock_state = .STATE_NOTHING_TO_DELETE →
          status_line_drawn (draw_image g resolution) = ["No input"]) ∧
        (g.unlock_state ≠ .STATE_NOTHING_TO_DELETE →
          (g.show_failed_attempts = true ∧ 0 < g.failed_attempts →
            status_line_drawn (draw_image g resolution) = [failed_attempts_text g]) ∧
          (¬ (g.show_failed_attempts = true ∧ 0 < g.failed_attempts) →
            status_line_drawn (draw_image g resolution) = [])))) := by
  constructor
  · cases hind : g.unlock_indicator
    · simp [status_line_drawn_disabled g resolution hind]
    · rw [status_line_drawn_eq g resolution hind]
      split_ifs <;> simp
  · intro hind
    rw [status_line_drawn_eq g resolution hind]
    refine ⟨fun ha => ?_, fun ha => ?_, fun ha => ?_, fun ha => ?_, fun ha => ⟨fun hu => ?_,
      fun hu => ⟨fun hf => ?_, fun hf => ?_⟩⟩⟩
    · simp [status_text, ha]
    · simp [status_text, ha]
    · simp [status_text, ha]
    · simp [status_text, ha]
    · simp [status_text, ha, hu]
    · simp [status_text, ha, hu, hf]
    · simp [status_text, ha, hu, hf]

/-- C4 at `sample_env`: idle, a key active, the display of failed attempts
enabled with a count of 2: the failed-attempt text is the one status line. -/
theorem status_line_priority_witness :
    sample_env.unlock_indicator = true ∧
    sample_env.auth_state = .STATE_AUTH_IDLE ∧
    sample_env.unlock_state ≠ .STATE_NOTHING_TO_DELETE ∧
    (sample_env.show_failed_attempts = true ∧ 0 < sample_env.failed_attempts) ∧
    status_line_drawn (draw_image sample_env (3200, 1080))
      = [failed_attempts_text sample_env] ∧
    failed_attempts_text sample_env = "2 failed attempts" :=
  ⟨rfl, rfl, by decide, ⟨rfl, by decide⟩,
    (((status_line_priority sample_env (3200, 1080)).2 rfl).2.2.2.2 rfl).2 (by decide)
      |>.1 ⟨rfl, by decide⟩,
    by decide⟩

theorem fmt_i_of_nat (n : Nat) : fmt_i (n : Int) = Nat.repr n := rfl

theorem failed_attempts_text_plural (g : env) (n : Nat) (h2 : 2 ≤ n) (hmax : n ≤ 2147483647)
    (hn : g.failed_attempts = (n : Int)) :
    failed_attempts_text g = Nat.repr n ++ " failed attempts" := by
  unfold failed_attempts_text
  have h1 : g.failed_attempts ≠ 1 := by
    rw [hn]
    omega
  rw [if_neg h1, hn, fmt_i_of_nat]
  apply snprintf_of_length_le
  have hlen := Nat.repr_length n 10 (by decide) (by omega)
  have hs : " failed attempts".length = 16 := rfl
  simp only [String.length_append, INFO_MAXLENGTH, hs]
  omega

/-- C5: with the indicator enabled, `auth_state` Idle and `unlock_state` not
NothingToDelete: when the failed-attempt display is enabled the status line is
exactly `1 failed attempt` for a count of 1, exactly the decimal rendering of
`n` followed by ` failed attempts` for every count `n >= 2` (an `int`, so
`n <= 2147483647`), and absent for a count of 0; when the display is disabled
no status line is drawn for any count. -/
theorem failed_attempts_line (g : env) (resolution : Nat × Nat)
    (hind : g.unlock_indicator = true) (ha : g.auth_state = .STATE_AUTH_IDLE)
    (hu : g.unlock_state ≠ .STATE_NOTHING_TO_DELETE) :
    (g.show_failed_attempts = true →
      (g.failed_attempts = 1 →
        status_line_drawn (draw_image g resolution) = ["1 failed attempt"]) ∧
      (∀ n : Nat, 2 ≤ n → n ≤ 2147483647 → g.failed_attempts = (n : Int) →
        status_line_drawn (draw_image g resolution) = [Nat.repr n ++ " failed attempts"]) ∧
      (g.failed_attempts = 0 → status_line_drawn (draw_image g resolution) = [])) ∧
    (g.show_failed_attempts = false → status_line_drawn (draw_image g resolution) = []) := by
  rw [status_line_drawn_eq g resolution hind]
  refine ⟨fun hs => ⟨fun h1 => ?_, fun n h2 hmax hn => ?_, fun h0 => ?_⟩, fun hs => ?_⟩
  · simp [status_text, ha, hu, hs, h1, failed_attempts_text]
  · have hpos : 0 < g.failed_attempts := by
      rw [hn]
      omega
    simp [status_text, ha, hu, hs, hpos, failed_attempts_text_plural g n h2 hmax hn]
  · simp [status_text, ha, hu, hs, h0]
  · simp [status_text, ha, hu, hs]

/-- C5 at `sample_env`, whose count is 2: the line is `2 failed attempts`. -/
theorem failed_attempts_line_witness :
    sample_env.unlock_indicator = true ∧
    sample_env.auth_state = .STATE_AUTH_IDLE ∧
    sample_env.unlock_state ≠ .STATE_NOTHING_TO_DELETE ∧
    sample_env.show_failed_attempts = true ∧
    sample_env.failed_attempts = ((2 : Nat) : Int) ∧
    status_line_drawn (draw_image sample_env (3200, 1080)) = ["2 failed attempts"] :=
  ⟨rfl, rfl, by decide, rfl, by decide,
    ((failed_attempts_line sample_env (3200, 1080) rfl rfl (by decide)).1 rfl).2.1 2
      (by decide) (by decide) (by decide)⟩

/-! ### The disabled indicator -/

/-- C6, as the code has it: with the indicator disabled nothing is painted on
the indicator surface, so the indicator composited at each place is empty;
onto the returned surface go the background, then that empty indicator, then
the modifier panel exactly when `auth_state` is Wrong and a label is present,
then the logout banner exactly when `locked_time >= AUTHORIZED_LOCK_TIME`. -/
theorem disabled_indicator_paints (g : env) (resolution : Nat × Nat)
    (hind : g.unlock_indicator = false) :
    paints .ctx (draw_image g resolution) = [] ∧
    paints .xcb_ctx (draw_image g resolution)
      = paints .xcb_ctx (background_block g resolution)
          ++ (all_placements g).map composite_paint ∧
    composites_of .output (draw_image g resolution)
      = (indicator_placements g).map composite_paint ∧
    (composites_of .output_modifier (draw_image g resolution) ≠ []
      ↔ (g.auth_state = .STATE_AUTH_WRONG ∧ g.modifier_string ≠ none)) ∧
    (composites_of .output_indicator (draw_image g resolution) ≠ []
      ↔ g.AUTHORIZED_LOCK_TIME ≤ locked_time g) := by
  refine ⟨paints_ctx_disabled g resolution hind, paints_xcb g resolution, ?_,
    modifier_composited_iff g resolution, ?_⟩
  · rw [composites_of_eq g resolution _ (by decide), all_placements_output]
  · rw [banner_composited_iff]
    simp [authorized_override]

theorem env_disabled_wrong_locked_time : locked_time env_disabled_wrong = 45 :=
  locked_time_of_elapsed env_disabled_wrong 2700 (by decide) (by norm_num)

/-- C6 at `env_disabled_wrong`: nothing is painted on the indicator. -/
theorem disabled_indicator_paints_witness :
    env_disabled_wrong.unlock_indicator = false ∧
    paints .ctx (draw_image env_disabled_wrong (3200, 1080)) = [] :=
  ⟨rfl, (disabled_indicator_paints env_disabled_wrong (3200, 1080) rfl).1⟩

/-- C6 as stated fails: with the indicator disabled, a wrong password with
Caps Lock on and 45 minutes elapsed, both the modifier panel and the logout
banner are composited onto the returned surface. -/
theorem disabled_indicator_still_composites :
    env_disabled_wrong.unlock_indicator = false ∧
    composites_of .output_modifier (draw_image env_disabled_wrong (3200, 1080)) ≠ [] ∧
    composites_of .output_indicator (draw_image env_disabled_wrong (3200, 1080)) ≠ [] := by
  refine ⟨rfl, ?_, ?_⟩
  · rw [modifier_composited_iff]
    exact ⟨rfl, by simp [env_disabled_wrong, sample_env]⟩
  · rw [banner_composited_iff]
    simp only [authorized_override, env_disabled_wrong_locked_time]
    decide

/-! ### Placement of the indicator -/

theorem button_diameter_physical_nonneg (g : env) (h : 0 ≤ g.dpi_value) :
    0 ≤ button_diameter_physical g := by
  unfold button_diameter_physical scaling_factor BUTTON_DIAMETER BUTTON_SPACE BUTTON_RADIUS
  apply Int.ceil_nonneg
  have : (0 : ℚ) ≤ (g.dpi_value : ℚ) := by exact_mod_cast h
  positivity

theorem sample_env_diameter : button_diameter_physical sample_env = 190 := by
  unfold button_diameter_physical scaling_factor BUTTON_DIAMETER BUTTON_SPACE BUTTON_RADIUS
  norm_num [sample_env, Int.ceil_eq_iff]

/-- C7: with a non-empty list of outputs the indicator is composited once per
output, in list order, the `i`-th at
`(x_i + (width_i/2 - d/2), y_i + (height_i/2 - d/2))` with C integer division,
`d` being `ceil(scale * 190)`, filling the `d`-by-`d` square there; and when
`width_i >= d` and `height_i >= d` that square lies inside output `i` and its
margins on opposite sides differ by at most one pixel. -/
theorem indicator_once_per_output (g : env) (resolution : Nat × Nat)
    (hne : g.xr_resolutions ≠ []) :
    composites_of .output (draw_image g resolution)
      = g.xr_resolutions.map (fun r => composite_paint
          ⟨367, .output,
            r.x + (((r.width / 2 : Nat) : Int) - Int.tdiv (button_diameter_physical g) 2),
            r.y + (((r.height / 2 : Nat) : Int) - Int.tdiv (button_diameter_physical g) 2),
            button_diameter_physical g, button_diameter_physical g⟩) ∧
    (composites_of .output (draw_image g resolution)).length = g.xr_resolutions.length ∧
    button_diameter_physical g = ⌈(g.dpi_value : ℚ) / 96 * 190⌉ ∧
    (0 ≤ g.dpi_value → ∀ r ∈ g.xr_resolutions,
      button_diameter_physical g ≤ r.width → button_diameter_physical g ≤ r.height →
      ∀ x y : Int,
        x = r.x + (((r.width / 2 : Nat) : Int) - Int.tdiv (button_diameter_physical g) 2) →
        y = r.y + (((r.height / 2 : Nat) : Int) - Int.tdiv (button_diameter_physical g) 2) →
        (r.x ≤ x ∧ x + button_diameter_physical g ≤ r.x + r.width ∧
          |(x - r.x) - (r.x + r.width - (x + button_diameter_physical g))| ≤ 1) ∧
        (r.y ≤ y ∧ y + button_diameter_physical g ≤ r.y + r.height ∧
          |(y - r.y) - (r.y + r.height - (y + button_diameter_physical g))| ≤ 1)) := by
  have hpos : 0 < g.xr_screens := (xr_screens_pos_iff g).2 hne
  have hcomp : composites_of .output (draw_image g resolution)
      = g.xr_resolutions.map (fun r => composite_paint
          ⟨367, .output,
            r.x + (((r.width / 2 : Nat) : Int) - Int.tdiv (button_diameter_physical g) 2),
            r.y + (((r.height / 2 : Nat) : Int) - Int.tdiv (button_diameter_physical g) 2),
            button_diameter_physical g, button_diameter_physical g⟩) := by
    rw [composites_of_eq g resolution _ (by decide), all_placements_output,
      indicator_placements]
    simp [hpos]
  refine ⟨hcomp, by rw [hcomp, List.length_map], ?_, ?_⟩
  · unfold button_diameter_physical scaling_factor BUTTON_DIAMETER BUTTON_SPACE BUTTON_RADIUS
    norm_num
  · intro hdpi r _ hw hh x y hx hy
    have hd := button_diameter_physical_nonneg g hdpi
    have ht : Int.tdiv (button_diameter_physical g) 2 = button_diameter_physical g / 2 :=
      Int.tdiv_eq_ediv hd (by decide)
    rw [ht] at hx hy
    generalize button_diameter_physical g = d at hd hw hh hx hy ⊢
    have hw2 : ((r.width / 2 : Nat) : Int) = (r.width : Int) / 2 := by norm_cast
    have hh2 : ((r.height / 2 : Nat) : Int) = (r.height : Int) / 2 := by norm_cast
    rw [hw2] at hx
    rw [hh2] at hy
    subst hx hy
    refine ⟨⟨?_, ?_, ?_⟩, ?_, ?_, ?_⟩ <;> first | omega | (rw [abs_le]; constructor <;> omega)

/-- C7 at `sample_env`, two outputs of 1920x1080 at (0,0) and 1280x1024 at
(1920,0), diameter 190: two composites, at (865,445) and (2465,417). -/
theorem indicator_once_per_output_witness :
    sample_env.xr_resolutions ≠ [] ∧
    composites_of .output (draw_image sample_env (3200, 1080))
      = [composite_paint ⟨367, .output, 865, 445, 190, 190⟩,
         composite_paint ⟨367, .output, 2465, 417, 190, 190⟩] :=
  have hne : sample_env.xr_resolutions ≠ [] := by simp [sample_env]
  ⟨hne, (indicator_once_per_output sample_env (3200, 1080) hne).1.trans (by
    rw [sample_env_diameter]
    simp [sample_env]
    decide)⟩

theorem int_of_uint32_to_uint32 (z : Int) (h1 : -2147483648 ≤ z) (h2 : z < 2147483648) :
    int_of_uint32 (to_uint32 z) = z := by
  unfold int_of_uint32 to_uint32
  split_ifs <;> omega

/-- C8: with no output known the indicator is composited exactly once, at
`(virtualWidth/2 - d/2, virtualHeight/2 - d/2)` with integer division, for
every root-window size a `uint32_t` holds, smaller than `d` or not (`d` a
non-negative `int`): the unsigned arithmetic of the source wraps around and
the conversion to `int` undoes it. -/
theorem indicator_fallback_centre (g : env) (resolution : Nat × Nat)
    (hempty : g.xr_resolutions = []) (hdpi : 0 ≤ g.dpi_value)
    (hd : button_diameter_physical g < 2147483648)
    (hw : g.last_resolution.1 < 4294967296) (hh : g.last_resolution.2 < 4294967296) :
    composites_of .output (draw_image g resolution)
      = [composite_paint
          ⟨377, .output,
            ((g.last_resolution.1 / 2 : Nat) : Int) - button_diameter_physical g / 2,
            ((g.last_resolution.2 / 2 : Nat) : Int) - button_diameter_physical g / 2,
            button_diameter_physical g, button_diameter_physical g⟩] := by
  have hpos : ¬ 0 < g.xr_screens := by
    rw [xr_screens_pos_iff]
    simp [hempty]
  have hd0 := button_diameter_physical_nonneg g hdpi
  have ht : Int.tdiv (button_diameter_physical g) 2 = button_diameter_physical g / 2 :=
    Int.tdiv_eq_ediv hd0 (by decide)
  rw [composites_of_eq g resolution _ (by decide), all_placements_output, indicator_placements]
  simp only [hpos, if_false, ht, List.map_cons, List.map_nil]
  rw [int_of_uint32_to_uint32 _ (by omega) (by omega),
    int_of_uint32_to_uint32 _ (by omega) (by omega)]

/-- C8 at `env_no_output`, a root window of 100 by 50 and a diameter of 190:
one composite, at (-45, -70). -/
theorem indicator_fallback_centre_witness :
    env_no_output.xr_resolutions = [] ∧ 0 ≤ env_no_output.dpi_value ∧
    button_diameter_physical env_no_output < 2147483648 ∧
    env_no_output.last_resolution.1 < 4294967296 ∧
    env_no_output.last_resolution.2 < 4294967296 ∧
    composites_of .output (draw_image env_no_output (100, 50))
      = [composite_paint ⟨377, .output, -45, -70, 190, 190⟩] :=
  have hd : button_diameter_physical env_no_output = 190 := sample_env_diameter
  ⟨rfl, by decide, by rw [hd]; decide, by decide, by decide,
    (indicator_fallback_centre env_no_output (100, 50) rfl (by decide) (by rw [hd]; decide)
      (by decide) (by decide)).trans (by
        rw [hd]
        decide)⟩

/-! ### The periodic redraw timer -/

theorem start_init_ok : start_time_redraw_tick tick_state.init true = tick_state.armed := by
  simp [start_time_redraw_tick, tick_state.init, tick_state.armed, ev_periodic_start,
    ev_periodic_init, tick_state.watcher]

theorem start_init_fail : start_time_redraw_tick tick_state.init false = tick_state.init := by
  simp [start_time_redraw_tick, tick_state.init]

theorem start_armed (b : Bool) : start_time_redraw_tick tick_state.armed b = tick_state.armed := by
  simp [start_time_redraw_tick, tick_state.armed, ev_periodic_again, ev_periodic_start,
    ev_periodic_stop, ev_periodic_set, tick_state.watcher]

theorem foldl_armed (outcomes : List Bool) :
    outcomes.foldl start_time_redraw_tick tick_state.armed = tick_state.armed := by
  induction outcomes with
  | nil => rfl
  | cons b bs ih => rw [List.foldl_cons, start_armed, ih]

theorem run_ticks_eq (outcomes : List Bool) :
    run_ticks outcomes = if true ∈ outcomes then tick_state.armed else tick_state.init := by
  unfold run_ticks
  induction outcomes with
  | nil => simp
  | cons b bs ih =>
    cases b
    · rw [List.foldl_cons, start_init_fail, ih]
      simp
    · rw [List.foldl_cons, start_init_ok, foldl_armed]
      simp

theorem getD_set_same (heap : List ev_periodic) (w : Nat) (p d : ev_periodic)
    (h : w < heap.length) : (heap.set w p).getD w d = p := by
  simp [List.getD_eq_getElem?_getD, List.getElem?_set, h]

theorem getD_set_ne (heap : List ev_periodic) (w v : Nat) (p d : ev_periodic) (h : v ≠ w) :
    (heap.set w p).getD v d = heap.getD v d := by
  simp [List.getD_eq_getElem?_getD, List.getElem?_set, Ne.symm h]

/-- The branch of line 516 on any state with an allocated watcher, running or
stopped, whatever its schedule: the watcher is given offset 1.0 and interval
60, taken off the loop if it was on it, and started. -/
theorem start_existing (s : tick_state) (w : Nat) (b : Bool)
    (ht : s.time_redraw_tick = some w) (hw : w < s.heap.length)
    (hnd : s.periodics.Nodup) (hact : (s.watcher w).active = true ↔ w ∈ s.periodics) :
    (start_time_redraw_tick s b).time_redraw_tick = some w ∧
    (start_time_redraw_tick s b).heap.length = s.heap.length ∧
    (start_time_redraw_tick s b).watcher w = ⟨true, 1.0, 60.0⟩ ∧
    (∀ v, v ≠ w → (start_time_redraw_tick s b).watcher v = s.watcher v) ∧
    (start_time_redraw_tick s b).periodics = s.periodics.erase w ++ [w] ∧
    (start_time_redraw_tick s b).periodics.count w = 1 := by
  have hcount : (s.periodics.erase w ++ [w]).count w = 1 := by
    rw [List.count_append, List.count_erase_self]
    have := List.nodup_iff_count_le_one.1 hnd w
    simp
    omega
  obtain ⟨tick, heap, per⟩ := s
  simp only at ht hw hnd hcount
  subst ht
  simp only [tick_state.watcher] at hact
  unfold start_time_redraw_tick
  generalize hp : heap.getD w ⟨false, 0, 0⟩ = p at hact
  obtain ⟨a, o, i⟩ := p
  cases a
  · have hnot : w ∉ per := fun h => by simpa using hact.2 h
    have he : per.erase w = per := List.erase_of_not_mem hnot
    rw [he] at hcount
    simp only [ev_periodic_again, ev_periodic_stop, ev_periodic_set, ev_periodic_start,
      tick_state.watcher, hp, getD_set_same _ _ _ _ hw, Bool.false_eq_true, if_false,
      List.set_set, List.length_set, he]
    exact ⟨trivial, trivial, trivial, fun v hv => getD_set_ne _ _ _ _ _ hv, trivial, hcount⟩
  · simp only [ev_periodic_again, ev_periodic_stop, ev_periodic_set, ev_periodic_start,
      tick_state.watcher, hp, getD_set_same _ _ _ _ hw, Bool.false_eq_true, if_false, if_true,
      List.set_set, List.length_set]
    exact ⟨trivial, trivial, trivial, fun v hv => getD_set_ne _ _ _ _ _ hv, trivial, hcount⟩

/-- The branch of line 519 on any state without a timer: a failed `calloc`
changes nothing; a successful one adds one watcher, running with offset 1.0
and interval 60, and points `time_redraw_tick` at it. -/
theorem start_absent (s : tick_state) (ht : s.time_redraw_tick = none) :
    start_time_redraw_tick s false = s ∧
    (start_time_redraw_tick s true).time_redraw_tick = some s.heap.length ∧
    (start_time_redraw_tick s true).heap = s.heap ++ [⟨true, 1.0, 60.0⟩] ∧
    (start_time_redraw_tick s true).periodics = s.periodics ++ [s.heap.length] := by
  unfold start_time_redraw_tick
  rw [ht]
  simp [ev_periodic_start, ev_periodic_init, tick_state.watcher, List.getD_eq_getElem?_getD]

/-- The states reached from program start: nothing allocated, or the one
timer running every 60 s at offset 1. -/
theorem run_ticks_spec (outcomes : List Bool) (b : Bool) :
    (run_ticks outcomes).heap.length ≤ 1 ∧
    (run_ticks outcomes).periodics.length ≤ 1 ∧
    (true ∈ outcomes →
      (run_ticks outcomes).time_redraw_tick = some 0 ∧
      (run_ticks outcomes).heap = [⟨true, 1.0, 60.0⟩] ∧
      (run_ticks outcomes).periodics = [0]) ∧
    ((run_ticks outcomes).time_redraw_tick ≠ none →
      (start_time_redraw_tick (run_ticks outcomes) b).time_redraw_tick
        = (run_ticks outcomes).time_redraw_tick ∧
      (start_time_redraw_tick (run_ticks outcomes) b).heap.length
        = (run_ticks outcomes).heap.length ∧
      (start_time_redraw_tick (run_ticks outcomes) b).heap = [⟨true, 1.0, 60.0⟩] ∧
      (start_time_redraw_tick (run_ticks outcomes) b).periodics = [0]) ∧
    (run_ticks [true, b]).periodics = [0] ∧
    ((run_ticks outcomes).time_redraw_tick = none →
      start_time_redraw_tick (run_ticks outcomes) false = run_ticks outcomes ∧
      (run_ticks outcomes).periodics = []) := by
  rw [run_ticks_eq, run_ticks_eq]
  by_cases h : true ∈ outcomes
  · rw [if_pos h]
    simp only [start_armed]
    simp [tick_state.armed]
  · simp only [if_neg h, start_init_fail]
    simp [tick_state.armed, tick_state.init, h]

/-- C9: after any number of calls of `start_time_redraw_tick` from program
start, whatever the `calloc` outcomes, at most one timer is allocated and at
most one periodic trigger is active; once an allocation has succeeded exactly
one trigger is active, on the one timer, with offset 1.0 and interval 60 (two
calls in succession give one trigger).  A call that finds a timer, running or
stopped and whatever its schedule, allocates nothing: it keeps the handle,
sets the schedule of that timer to offset 1.0 and interval 60 and restarts it,
so that it is registered with the loop exactly once.  A call that finds no
timer allocates one and starts it with that schedule, or, when the allocation
fails, leaves the state unchanged, with no trigger started. -/
theorem start_time_redraw_tick_idempotent (outcomes : List Bool) (b : Bool)
    (s : tick_state) (w : Nat) :
    (run_ticks outcomes).heap.length ≤ 1 ∧
    (run_ticks outcomes).periodics.length ≤ 1 ∧
    (true ∈ outcomes →
      (run_ticks outcomes).time_redraw_tick = some 0 ∧
      (run_ticks outcomes).heap = [⟨true, 1.0, 60.0⟩] ∧
      (run_ticks outcomes).periodics = [0]) ∧
    ((run_ticks outcomes).time_redraw_tick ≠ none →
      (start_time_redraw_tick (run_ticks outcomes) b).time_redraw_tick
        = (run_ticks outcomes).time_redraw_tick ∧
      (start_time_redraw_tick (run_ticks outcomes) b).heap.length
        = (run_ticks outcomes).heap.length ∧
      (start_time_redraw_tick (run_ticks outcomes) b).heap = [⟨true, 1.0, 60.0⟩] ∧
      (start_time_redraw_tick (run_ticks outcomes) b).periodics = [0]) ∧
    (run_ticks [true, b]).periodics = [0] ∧
    ((run_ticks outcomes).time_redraw_tick = none →
      start_time_redraw_tick (run_ticks outcomes) false = run_ticks outcomes ∧
      (run_ticks outcomes).periodics = []) ∧
    (s.time_redraw_tick = some w → w < s.heap.length → s.periodics.Nodup →
      ((s.watcher w).active = true ↔ w ∈ s.periodics) →
      (start_time_redraw_tick s b).time_redraw_tick = some w ∧
      (start_time_redraw_tick s b).heap.length = s.heap.length ∧
      (start_time_redraw_tick s b).watcher w = ⟨true, 1.0, 60.0⟩ ∧
      (∀ v, v ≠ w → (start_time_redraw_tick s b).watcher v = s.watcher v) ∧
      (start_time_redraw_tick s b).periodics = s.periodics.erase w ++ [w] ∧
      (start_time_redraw_tick s b).periodics.count w = 1) ∧
    (s.time_redraw_tick = none →
      start_time_redraw_tick s false = s ∧
      (start_time_redraw_tick s true).time_redraw_tick = some s.heap.length ∧
      (start_time_redraw_tick s true).heap = s.heap ++ [⟨true, 1.0, 60.0⟩] ∧
      (start_time_redraw_tick s true).periodics = s.periodics ++ [s.heap.length]) := by
  obtain ⟨h1, h2, h3, h4, h5, h6⟩ := run_ticks_spec outcomes b
  exact ⟨h1, h2, h3, h4, h5, h6, start_existing s w b, start_absent s⟩

/-- C9 after a failed and then a successful allocation, then one more call;
and on a stopped timer scheduled otherwise, which the call reschedules and
starts. -/
theorem start_time_redraw_tick_idempotent_witness :
    (true ∈ [false, true, true] ∧
      (run_ticks [false, true, true]).time_redraw_tick = some 0 ∧
      (run_ticks [false, true, true]).heap = [⟨true, 1.0, 60.0⟩] ∧
      (run_ticks [false, true, true]).periodics = [0]) ∧
    (tick_state.stopped.time_redraw_tick = some 0 ∧
      tick_state.stopped.watcher 0 = ⟨false, 5, 30⟩ ∧
      (start_time_redraw_tick tick_state.stopped true).watcher 0 = ⟨true, 1.0, 60.0⟩ ∧
      (start_time_redraw_tick tick_state.stopped true).periodics = [0]) :=
  have h := start_time_redraw_tick_idempotent [false, true, true] true tick_state.stopped 0
  have h2 := h.2.2.2.2.2.2.1 rfl (by decide) List.nodup_nil (by
    simp [tick_state.stopped, tick_state.watcher])
  ⟨⟨by decide, h.2.2.1 (by decide)⟩, rfl, rfl, h2.2.2.1, h2.2.2.2.2.1⟩

/-! ### The highlight arc -/

theorem angle_add_sub_cancel (a b : angle) : a + b - a = b := by
  cases a
  cases b
  show angle.mk (_ + _ - _) (_ + _ - _) = _
  congr 1 <;> ring

theorem angle_sub_sub_cancel (a b : angle) : a - (a - b) = b := by
  cases a
  cases b
  show angle.mk (_ - (_ - _)) (_ - (_ - _)) = _
  congr 1 <;> ring

theorem angle_sub_pi (a b : angle) : (a - b).pi = a.pi - b.pi := rfl

theorem full_turn_no_highlight :
    angle.mul 2 M_PI - angle.of_rat 0 ≠ angle.div M_PI 3.0 := by
  intro h
  have := congrArg angle.pi h
  rw [angle_sub_pi] at this
  norm_num [angle.mul, angle.of_rat, angle.div, M_PI] at this

theorem tick_no_highlight : angle.div M_PI 128.0 ≠ angle.div M_PI 3.0 := by
  intro h
  have := congrArg angle.pi h
  norm_num [angle.div, M_PI] at this

/-- The paths painted hold only calls of the starting path and of the run. -/
theorem cairo_run_path_mem (P : cairo_call → Prop) (l : List (Nat × cairo_call))
    (st : cairo_state) (hst : ∀ c ∈ st.path, P c) (hl : ∀ e ∈ l, P e.2) :
    ∀ p ∈ cairo_run st l, ∀ c ∈ p.path, P c := by
  induction l generalizing st with
  | nil => simp [cairo_run]
  | cons e es ih =>
    have he : P e.2 := hl e (by simp)
    have hes : ∀ e2 ∈ es, P e2.2 := fun e2 h2 => hl e2 (by simp [h2])
    intro p hp
    rw [cairo_run_cons, List.mem_append] at hp
    rcases e with ⟨n, call⟩
    rcases hp with hp | hp
    · cases call <;> simp [cairo_step] at hp <;> (subst hp; exact hst)
    · refine ih _ ?_ hes p hp
      cases call <;> simp only [cairo_step] <;> try exact hst
      all_goals first
        | (intro c hc
           rw [List.mem_append, List.mem_singleton] at hc
           rcases hc with hc | hc
           · exact hst c hc
           · subst hc; exact he)
        | (intro c hc; simp at hc)

theorem stroked_arcs_no_highlight (ps : List painted)
    (h : ∀ p ∈ ps, ∀ c ∈ p.path, cairo_call.no_highlight c) :
    (stroked_arcs ps).filter (fun a => a.2.2 - a.2.1 = angle.div M_PI 3.0) = [] := by
  simp only [List.filter_eq_nil_iff, stroked_arcs, List.mem_flatMap]
  rintro ⟨src, a1, a2⟩ ⟨p, hp, ha⟩
  cases hk : p.kind <;> simp [hk, arcs_of] at ha
  obtain ⟨⟨c, hc, hcb⟩, -⟩ := ha
  have := h p hp c hc
  cases c <;> simp at hcb
  obtain ⟨rfl, rfl⟩ := hcb
  simpa [cairo_call.no_highlight] using this

theorem ring_block_no_highlight (g : env) : ∀ e ∈ ring_block g, e.2.no_highlight := by
  unfold ring_block
  cases g.auth_state <;> cases g.unlock_state <;> cases authorized_override g <;> simp <;>
    (repeat' apply And.intro) <;> first | exact full_turn_no_highlight | trivial

theorem time_block_no_highlight (g : env) : ∀ e ∈ time_block g, e.2.no_highlight := by
  simp [time_block]
  (repeat' apply And.intro) <;> trivial

theorem status_block_no_highlight (g : env) : ∀ e ∈ status_block g, e.2.no_highlight := by
  unfold status_block
  split_ifs <;> simp <;> (repeat' apply And.intro) <;> trivial

theorem login_block_no_highlight (g : env) : ∀ e ∈ login_block g, e.2.no_highlight := by
  unfold login_block
  split
  · simp
  · simp
    (repeat' apply And.intro) <;> trivial

theorem caption_block_no_highlight (g : env) : ∀ e ∈ caption_block g, e.2.no_highlight := by
  simp [caption_block]
  (repeat' apply And.intro) <;> trivial

theorem separator_block_no_highlight : ∀ e ∈ separator_block, e.2.no_highlight := by
  simp [separator_block]
  (repeat' apply And.intro) <;> first | exact full_turn_no_highlight | trivial

theorem cairo_exec_separator_path (st : cairo_state) :
    (cairo_exec st separator_block).path = [] := by
  simp [separator_block, cairo_exec, cairo_step]

theorem stroked_arcs_append (a b : List painted) :
    stroked_arcs (a ++ b) = stroked_arcs a ++ stroked_arcs b := by
  simp [stroked_arcs]

/-- What the highlight block strokes that spans `M_PI / 3.0`, from a context
with no pending path. -/
theorem highlight_block_arcs (g : env) (st : cairo_state) (hst : st.path = []) :
    ((stroked_arcs (cairo_run st (highlight_block g))).filter
        fun a => a.2.2 - a.2.1 = angle.div M_PI 3.0).map (fun a => (a.1, a.2.1))
      = if g.unlock_state = .STATE_KEY_ACTIVE then [(.rgb 1 1 1, highlight_start g)]
        else if g.unlock_state = .STATE_BACKSPACE_ACTIVE then [(.rgb 0 0 0, highlight_start g)]
        else [] := by
  have h1 := angle_add_sub_cancel (highlight_start g) (angle.div M_PI 3.0)
  have h2 := angle_add_sub_cancel (highlight_start g) (angle.div M_PI 128.0)
  have h3 := angle_sub_sub_cancel (highlight_start g + angle.div M_PI 3.0)
    (angle.div M_PI 128.0)
  have h4 := tick_no_highlight
  cases hu : g.unlock_state <;>
    simp [highlight_block, hu, cairo_run, cairo_step, stroked_arcs, arcs_of, hst, h1, h2, h3, h4]

/-- The arcs spanning `M_PI / 3.0` stroked on the indicator are those the
highlight block strokes. -/
theorem highlight_arcs_eq (g : env) (resolution : Nat × Nat)
    (hind : g.unlock_indicator = true) :
    highlight_arcs (draw_image g resolution)
      = if g.unlock_state = .STATE_KEY_ACTIVE then [(.rgb 1 1 1, highlight_start g)]
        else if g.unlock_state = .STATE_BACKSPACE_ACTIVE then [(.rgb 0 0 0, highlight_start g)]
        else [] := by
  unfold highlight_arcs
  rw [paints_ctx_enabled g resolution hind]
  have hpre : ∀ e ∈ ring_block g ++ time_block g ++ status_block g ++ login_block g
      ++ caption_block g, e.2.no_highlight := by
    intro e he
    simp only [List.mem_append] at he
    rcases he with (((he | he) | he) | he) | he
    · exact ring_block_no_highlight g e he
    · exact time_block_no_highlight g e he
    · exact status_block_no_highlight g e he
    · exact login_block_no_highlight g e he
    · exact caption_block_no_highlight g e he
  have hA : ∀ e ∈ ring_block g ++ time_block g ++ status_block g ++ login_block g
      ++ caption_block g ++ separator_block, e.2.no_highlight := by
    intro e he
    rw [List.mem_append] at he
    rcases he with he | he
    · exact hpre e he
    · exact separator_block_no_highlight e he
  generalize ring_block g ++ time_block g ++ status_block g ++ login_block g
      ++ caption_block g = pre at hA
  have hrun := cairo_run_path_mem cairo_call.no_highlight (pre ++ separator_block) {}
    (by simp) hA
  have hnone := stroked_arcs_no_highlight _ hrun
  have hpath : (cairo_exec {} (pre ++ separator_block)).path = [] := by
    rw [cairo_exec_append]
    exact cairo_exec_separator_path _
  have hhl := highlight_block_arcs g _ hpath
  rw [cairo_run_append, cairo_run_append, stroked_arcs_append, stroked_arcs_append,
    List.filter_append, List.filter_append, hnone, List.nil_append, List.map_append, hhl]
  simp [cairo_run, cairo_step, stroked_arcs]

theorem highlight_start_bounds (n : Nat) :
    (0 : ℝ) ≤ (((n % 628 : Nat) : ℚ) / 100 : ℚ) ∧
    ((((n % 628 : Nat) : ℚ) / 100 : ℚ) : ℝ) < 2 * Real.pi := by
  have hpi := Real.pi_gt_d2
  have hlt : n % 628 < 628 := Nat.mod_lt _ (by decide)
  have hr : ((n % 628 : Nat) : ℝ) < 628 := by exact_mod_cast hlt
  have h0 : (0 : ℝ) ≤ ((n % 628 : Nat) : ℝ) := by positivity
  push_cast
  constructor
  · positivity
  · linarith

/-- The constant of line 326: `(int)(2 * M_PI * 100)` is 628. -/
theorem highlight_modulus_floor : ⌊2 * Real.pi * 100⌋ = (highlight_modulus : Int) := by
  have h1 := Real.pi_gt_d2
  have h2 := Real.pi_lt_d4
  have hm : ((highlight_modulus : Int) : ℝ) = 628 := by
    unfold highlight_modulus
    norm_num
  rw [Int.floor_eq_iff, hm]
  constructor
  · linarith
  · linarith

/-- C10: with the indicator enabled, for every value `rand()` returns: when
`unlock_state` is KeyActive exactly one arc spanning `M_PI / 3.0` (a third of
`π`, 60 degrees) is stroked on the indicator, in white, from the start angle
`(rand() mod 628) / 100`; when it is BackspaceActive exactly one, in black;
otherwise none; and that start angle lies in `[0, 2π)`, 628 being
`(int)(2 * M_PI * 100)`. -/
theorem highlight_arc_drawn (g : env) (resolution : Nat × Nat)
    (hind : g.unlock_indicator = true) :
    (g.unlock_state = .STATE_KEY_ACTIVE →
      highlight_arcs (draw_image g resolution) = [(.rgb 1 1 1, highlight_start g)]) ∧
    (g.unlock_state = .STATE_BACKSPACE_ACTIVE →
      highlight_arcs (draw_image g resolution) = [(.rgb 0 0 0, highlight_start g)]) ∧
    (g.unlock_state ≠ .STATE_KEY_ACTIVE → g.unlock_state ≠ .STATE_BACKSPACE_ACTIVE →
      highlight_arcs (draw_image g resolution) = []) ∧
    angle.div M_PI 3.0 = ⟨0, 1 / 3⟩ ∧
    highlight_start g = ⟨((g.rand_value % 628 : Nat) : ℚ) / 100, 0⟩ ∧
    (0 : ℝ) ≤ (((g.rand_value % 628 : Nat) : ℚ) / 100 : ℚ) ∧
    ((((g.rand_value % 628 : Nat) : ℚ) / 100 : ℚ) : ℝ) < 2 * Real.pi ∧
    ⌊2 * Real.pi * 100⌋ = (628 : Int) := by
  rw [highlight_arcs_eq g resolution hind]
  refine ⟨fun h => by simp [h], fun h => by simp [h], fun h1 h2 => by simp [h1, h2], ?_, ?_,
    (highlight_start_bounds g.rand_value).1, (highlight_start_bounds g.rand_value).2,
    highlight_modulus_floor⟩
  · unfold angle.div M_PI
    norm_num
  · unfold highlight_start angle.of_rat highlight_modulus
    norm_num

/-- C10 at `sample_env`, a key active and `rand()` returning 12345: one white
arc, starting at 4.13 radians. -/
theorem highlight_arc_drawn_witness :
    sample_env.unlock_indicator = true ∧
    sample_env.unlock_state = .STATE_KEY_ACTIVE ∧
    highlight_arcs (draw_image sample_env (3200, 1080))
      = [(.rgb 1 1 1, highlight_start sample_env)] ∧
    highlight_start sample_env = ⟨413 / 100, 0⟩ :=
  have h := highlight_arc_drawn sample_env (3200, 1080) rfl
  ⟨rfl, rfl, h.1 rfl, h.2.2.2.2.1.trans (by
    simp [sample_env])⟩

/-! ### The modifier panel -/

/-- The ceiling of a scaled length, in integer arithmetic. -/
theorem ceil_scaled (g : env) (k : Int) :
    ⌈scaling_factor g * (k : ℚ)⌉ = -((-(g.dpi_value * k)) / 96) := by
  have h : scaling_factor g * (k : ℚ)
      = -((((-(g.dpi_value * k) : Int)) : ℚ) / ((96 : Nat) : ℚ)) := by
    unfold scaling_factor
    push_cast
    ring
  rw [h, Int.ceil_neg, Rat.floor_intCast_div_natCast]
  norm_num

theorem button_diameter_physical_eq (g : env) :
    button_diameter_physical g = -((-(g.dpi_value * 190)) / 96) := by
  unfold button_diameter_physical
  have : (BUTTON_DIAMETER : ℚ) = ((190 : Int) : ℚ) := by
    norm_num [BUTTON_DIAMETER, BUTTON_SPACE, BUTTON_RADIUS]
  rw [this, ceil_scaled]

theorem modifier_h_scaled_eq (g : env) :
    modifier_h_scaled g = -((-(g.dpi_value * 50)) / 96) := by
  unfold modifier_h_scaled
  rw [ceil_scaled]

theorem modifier_w_scaled_eq (g : env) :
    modifier_w_scaled g = -((-(g.dpi_value * 300)) / 96) := by
  unfold modifier_w_scaled
  rw [ceil_scaled]

/-- The composites of the indicator, one per output. -/
theorem indicator_composites_outputs (g : env) (resolution : Nat × Nat)
    (hne : g.xr_resolutions ≠ []) (hdpi : 0 ≤ g.dpi_value) :
    composites_of .output (draw_image g resolution)
      = g.xr_resolutions.map (fun r => composite_paint
          ⟨367, .output,
            r.x + (((r.width / 2 : Nat) : Int) - button_diameter_physical g / 2),
            r.y + (((r.height / 2 : Nat) : Int) - button_diameter_physical g / 2),
            button_diameter_physical g, button_diameter_physical g⟩) := by
  have hpos : 0 < g.xr_screens := (xr_screens_pos_iff g).2 hne
  have ht : Int.tdiv (button_diameter_physical g) 2 = button_diameter_physical g / 2 :=
    Int.tdiv_eq_ediv (button_diameter_physical_nonneg g hdpi) (by decide)
  rw [composites_of_eq g resolution _ (by decide), all_placements_output, indicator_placements]
  simp [hpos, ht]

/-- The one composite of the indicator when no output is known. -/
theorem indicator_composites_fallback (g : env) (resolution : Nat × Nat)
    (hempty : g.xr_resolutions = []) (hdpi : 0 ≤ g.dpi_value)
    (hd : button_diameter_physical g < 2147483648)
    (hw : g.last_resolution.1 < 4294967296) (hh : g.last_resolution.2 < 4294967296) :
    composites_of .output (draw_image g resolution)
      = [composite_paint
          ⟨377, .output,
            ((g.last_resolution.1 / 2 : Nat) : Int) - button_diameter_physical g / 2,
            ((g.last_resolution.2 / 2 : Nat) : Int) - button_diameter_physical g / 2,
            button_diameter_physical g, button_diameter_physical g⟩] := by
  have hpos : ¬ 0 < g.xr_screens := by
    rw [xr_screens_pos_iff]
    simp [hempty]
  have hd0 := button_diameter_physical_nonneg g hdpi
  have ht : Int.tdiv (button_diameter_physical g) 2 = button_diameter_physical g / 2 :=
    Int.tdiv_eq_ediv hd0 (by decide)
  rw [composites_of_eq g resolution _ (by decide), all_placements_output, indicator_placements]
  simp only [hpos, if_false, ht, List.map_cons, List.map_nil]
  rw [int_of_uint32_to_uint32 _ (by omega) (by omega),
    int_of_uint32_to_uint32 _ (by omega) (by omega)]

/-- The composites of the modifier panel, one per output. -/
theorem modifier_composites_outputs (g : env) (resolution : Nat × Nat)
    (hw : g.auth_state = .STATE_AUTH_WRONG) (hm : g.modifier_string ≠ none)
    (hne : g.xr_resolutions ≠ []) (hdpi : 0 ≤ g.dpi_value) :
    composites_of .output_modifier (draw_image g resolution)
      = g.xr_resolutions.map (fun r => composite_paint
          ⟨408, .output_modifier,
            r.x + ((r.width / 2 : Nat) : Int) - modifier_w_scaled g / 2,
            r.y + ((r.height / 2 : Nat) : Int) + modifier_h_scaled g + 50,
            modifier_w_scaled g, modifier_h_scaled g⟩) := by
  have hpos : 0 < g.xr_screens := (xr_screens_pos_iff g).2 hne
  have hw0 : 0 ≤ modifier_w_scaled g := by
    rw [modifier_w_scaled_eq]
    omega
  have ht : Int.tdiv (modifier_w_scaled g) 2 = modifier_w_scaled g / 2 :=
    Int.tdiv_eq_ediv hw0 (by decide)
  rw [composites_of_eq g resolution _ (by decide), all_placements_modifier,
    if_pos ⟨hw, hm⟩, modifier_placements]
  simp [hpos, ht]

/-- The one composite of the modifier panel when no output is known. -/
theorem modifier_composites_fallback (g : env) (resolution : Nat × Nat)
    (hw : g.auth_state = .STATE_AUTH_WRONG) (hm : g.modifier_string ≠ none)
    (hempty : g.xr_resolutions = []) (hdpi : 0 ≤ g.dpi_value)
    (hws : modifier_w_scaled g < 2147483648)
    (hrw : g.last_resolution.1 < 4294967296)
    (hrh : ((g.last_resolution.2 / 2 : Nat) : Int) + modifier_h_scaled g + 100 < 2147483648) :
    composites_of .output_modifier (draw_image g resolution)
      = [composite_paint
          ⟨415, .output_modifier,
            ((g.last_resolution.1 / 2 : Nat) : Int) - modifier_w_scaled g / 2,
            ((g.last_resolution.2 / 2 : Nat) : Int) + modifier_h_scaled g + 100,
            modifier_w_scaled g, modifier_h_scaled g⟩] := by
  have hpos : ¬ 0 < g.xr_screens := by
    rw [xr_screens_pos_iff]
    simp [hempty]
  have hw0 : 0 ≤ modifier_w_scaled g := by
    rw [modifier_w_scaled_eq]
    omega
  have hh0 : 0 ≤ modifier_h_scaled g := by
    rw [modifier_h_scaled_eq]
    omega
  have ht : Int.tdiv (modifier_w_scaled g) 2 = modifier_w_scaled g / 2 :=
    Int.tdiv_eq_ediv hw0 (by decide)
  rw [composites_of_eq g resolution _ (by decide), all_placements_modifier,
    if_pos ⟨hw, hm⟩, modifier_placements]
  simp only [hpos, if_false, ht, List.map_cons, List.map_nil]
  rw [int_of_uint32_to_uint32 _ (by omega) (by omega),
    int_of_uint32_to_uint32 _ (by omega) (by omega)]

/-- Up to 108 dpi the offset `h_scaled + 50` of the panel reaches the lower
half of the indicator. -/
theorem panel_offset_outputs (dpi : Int) (h1 : 96 ≤ dpi) (h2 : dpi ≤ 108) :
    -((-(dpi * 190)) / 96) - (-((-(dpi * 190)) / 96)) / 2 ≤ -((-(dpi * 50)) / 96) + 50 := by
  interval_cases dpi <;> decide

/-- Up to 214 dpi the offset `h_scaled + 100` of the panel reaches the lower
half of the indicator. -/
theorem panel_offset_fallback (dpi : Int) (h1 : 96 ≤ dpi) (h2 : dpi ≤ 214) :
    -((-(dpi * 190)) / 96) - (-((-(dpi * 190)) / 96)) / 2 ≤ -((-(dpi * 50)) / 96) + 100 := by
  interval_cases dpi <;> decide

/-- C11, as far as the code goes: when `auth_state` is Wrong and a modifier
label is present, for every scale factor `s >= 1` (a dpi value of 96 or more)
the panel is composited exactly once per output, its top edge at
`y_i + height_i/2 + ceil(50*s) + 50`, and exactly once when no output is known,
its top edge at `virtualHeight/2 + ceil(50*s) + 100`; that top edge is at or
below the bottom edge of the indicator (its composite `y` plus the diameter
`ceil(190*s)`) for dpi values up to 108 on the outputs and up to 214 in the
fallback, in particular for `s = 1`. -/
theorem modifier_panel_below_indicator (g : env) (resolution : Nat × Nat)
    (hw : g.auth_state = .STATE_AUTH_WRONG) (hm : g.modifier_string ≠ none)
    (hs : 96 ≤ g.dpi_value) :
    (g.xr_resolutions ≠ [] →
      composites_of .output_modifier (draw_image g resolution)
        = g.xr_resolutions.map (fun r => composite_paint
            ⟨408, .output_modifier,
              r.x + ((r.width / 2 : Nat) : Int) - modifier_w_scaled g / 2,
              r.y + ((r.height / 2 : Nat) : Int) + modifier_h_scaled g + 50,
              modifier_w_scaled g, modifier_h_scaled g⟩) ∧
      composites_of .output (draw_image g resolution)
        = g.xr_resolutions.map (fun r => composite_paint
            ⟨367, .output,
              r.x + (((r.width / 2 : Nat) : Int) - button_diameter_physical g / 2),
              r.y + (((r.height / 2 : Nat) : Int) - button_diameter_physical g / 2),
              button_diameter_physical g, button_diameter_physical g⟩) ∧
      (g.dpi_value ≤ 108 → ∀ r ∈ g.xr_resolutions,
        r.y + (((r.height / 2 : Nat) : Int) - button_diameter_physical g / 2)
            + button_diameter_physical g
          ≤ r.y + ((r.height / 2 : Nat) : Int) + modifier_h_scaled g + 50)) ∧
    (g.xr_resolutions = [] → modifier_w_scaled g < 2147483648 →
      g.last_resolution.1 < 4294967296 →
      ((g.last_resolution.2 / 2 : Nat) : Int) + modifier_h_scaled g + 100 < 2147483648 →
      composites_of .output_modifier (draw_image g resolution)
        = [composite_paint
            ⟨415, .output_modifier,
              ((g.last_resolution.1 / 2 : Nat) : Int) - modifier_w_scaled g / 2,
              ((g.last_resolution.2 / 2 : Nat) : Int) + modifier_h_scaled g + 100,
              modifier_w_scaled g, modifier_h_scaled g⟩] ∧
      composites_of .output (draw_image g resolution)
        = [composite_paint
            ⟨377, .output,
              ((g.last_resolution.1 / 2 : Nat) : Int) - button_diameter_physical g / 2,
              ((g.last_resolution.2 / 2 : Nat) : Int) - button_diameter_physical g / 2,
              button_diameter_physical g, button_diameter_physical g⟩] ∧
      (g.dpi_value ≤ 214 →
        ((g.last_resolution.2 / 2 : Nat) : Int) - button_diameter_physical g / 2
            + button_diameter_physical g
          ≤ ((g.last_resolution.2 / 2 : Nat) : Int) + modifier_h_scaled g + 100)) ∧
    modifier_h_scaled g = ⌈(g.dpi_value : ℚ) / 96 * 50⌉ ∧
    button_diameter_physical g = ⌈(g.dpi_value : ℚ) / 96 * 190⌉ := by
  have hdpi : 0 ≤ g.dpi_value := by omega
  refine ⟨fun hne => ⟨modifier_composites_outputs g resolution hw hm hne hdpi,
      indicator_composites_outputs g resolution hne hdpi, fun h108 r _ => ?_⟩,
    fun hempty hws hrw hrh => ⟨modifier_composites_fallback g resolution hw hm hempty hdpi
      hws hrw hrh, indicator_composites_fallback g resolution hempty hdpi ?_ hrw ?_,
      fun h214 => ?_⟩, ?_, ?_⟩
  · have := panel_offset_outputs g.dpi_value hs h108
    rw [button_diameter_physical_eq, modifier_h_scaled_eq]
    omega
  · rw [modifier_w_scaled_eq] at hws
    rw [button_diameter_physical_eq]
    omega
  · rw [modifier_h_scaled_eq] at hrh
    omega
  · have := panel_offset_fallback g.dpi_value hs h214
    rw [button_diameter_physical_eq, modifier_h_scaled_eq]
    omega
  · unfold modifier_h_scaled scaling_factor
    norm_num
  · unfold button_diameter_physical scaling_factor BUTTON_DIAMETER BUTTON_SPACE BUTTON_RADIUS
    norm_num

theorem env_wrong_h_scaled : modifier_h_scaled env_wrong = 50 := by
  rw [modifier_h_scaled_eq]
  decide

theorem env_wrong_w_scaled : modifier_w_scaled env_wrong = 300 := by
  rw [modifier_w_scaled_eq]
  decide

theorem env_wrong_diameter : button_diameter_physical env_wrong = 190 := by
  rw [button_diameter_physical_eq]
  decide

/-- C11 at 96 dpi: on the two outputs of `env_wrong` the panel tops are at 640
and 612, the indicator bottoms at 635 and 607; with no output known the panel
top is at 690 and the indicator bottom at 635. -/
theorem modifier_panel_below_indicator_witness :
    (env_wrong.auth_state = .STATE_AUTH_WRONG ∧ env_wrong.modifier_string ≠ none ∧
      96 ≤ env_wrong.dpi_value ∧ env_wrong.xr_resolutions ≠ [] ∧
      env_wrong.dpi_value ≤ 108 ∧
      composites_of .output_modifier (draw_image env_wrong (3200, 1080))
        = [composite_paint ⟨408, .output_modifier, 810, 640, 300, 50⟩,
           composite_paint ⟨408, .output_modifier, 2410, 612, 300, 50⟩] ∧
      composites_of .output (draw_image env_wrong (3200, 1080))
        = [composite_paint ⟨367, .output, 865, 445, 190, 190⟩,
           composite_paint ⟨367, .output, 2465, 417, 190, 190⟩]) ∧
    (env_wrong_no_output.xr_resolutions = [] ∧
      composites_of .output_modifier (draw_image env_wrong_no_output (3200, 1080))
        = [composite_paint ⟨415, .output_modifier, 1450, 690, 300, 50⟩] ∧
      composites_of .output (draw_image env_wrong_no_output (3200, 1080))
        = [composite_paint ⟨377, .output, 1505, 445, 190, 190⟩]) :=
  have hm : env_wrong.modifier_string ≠ none := by simp [env_wrong, sample_env]
  have hne : env_wrong.xr_resolutions ≠ [] := by simp [env_wrong, sample_env]
  have h1 := (modifier_panel_below_indicator env_wrong (3200, 1080) rfl hm (by decide)).1 hne
  have hws : modifier_w_scaled env_wrong_no_output < 2147483648 := by
    rw [show modifier_w_scaled env_wrong_no_output = 300 from env_wrong_w_scaled]
    decide
  have hrh : ((env_wrong_no_output.last_resolution.2 / 2 : Nat) : Int)
      + modifier_h_scaled env_wrong_no_output + 100 < 2147483648 := by
    rw [show modifier_h_scaled env_wrong_no_output = 50 from env_wrong_h_scaled]
    decide
  have h2 := (modifier_panel_below_indicator env_wrong_no_output (3200, 1080) rfl hm
    (by decide)).2.1 rfl hws (by decide) hrh
  ⟨⟨rfl, hm, by decide, hne, by decide,
      h1.1.trans (by rw [env_wrong_h_scaled, env_wrong_w_scaled]; decide),
      h1.2.1.trans (by rw [env_wrong_diameter]; decide)⟩,
    ⟨rfl,
      h2.1.trans (by
        rw [show modifier_h_scaled env_wrong_no_output = 50 from env_wrong_h_scaled,
          show modifier_w_scaled env_wrong_no_output = 300 from env_wrong_w_scaled]
        decide),
      h2.2.1.trans (by
        rw [show button_diameter_physical env_wrong_no_output = 190 from env_wrong_diameter]
        decide)⟩⟩

/-- C11 as stated fails: at 192 dpi (scale factor 2) on the first output of
`env_wrong_hidpi` the top edge of the panel is at 690, above the bottom edge
of the indicator at `350 + 380 = 730`. -/
theorem modifier_panel_overlaps_at_scale_2 :
    scaling_factor env_wrong_hidpi = 2 ∧
    env_wrong_hidpi.auth_state = .STATE_AUTH_WRONG ∧
    env_wrong_hidpi.modifier_string ≠ none ∧
    composites_of .output_modifier (draw_image env_wrong_hidpi (3200, 1080))
      = [composite_paint ⟨408, .output_modifier, 660, 690, 600, 100⟩,
         composite_paint ⟨408, .output_modifier, 2260, 662, 600, 100⟩] ∧
    composites_of .output (draw_image env_wrong_hidpi (3200, 1080))
      = [composite_paint ⟨367, .output, 770, 350, 380, 380⟩,
         composite_paint ⟨367, .output, 2370, 322, 380, 380⟩] ∧
    (690 : Int) < 350 + 380 := by
  have hm : env_wrong_hidpi.modifier_string ≠ none := by
    simp [env_wrong_hidpi, env_wrong, sample_env]
  have hne : env_wrong_hidpi.xr_resolutions ≠ [] := by
    simp [env_wrong_hidpi, env_wrong, sample_env]
  have hh : modifier_h_scaled env_wrong_hidpi = 100 := by
    rw [modifier_h_scaled_eq]
    decide
  have hws : modifier_w_scaled env_wrong_hidpi = 600 := by
    rw [modifier_w_scaled_eq]
    decide
  have hd : button_diameter_physical env_wrong_hidpi = 380 := by
    rw [button_diameter_physical_eq]
    decide
  refine ⟨?_, rfl, hm, ?_, ?_, by decide⟩
  · norm_num [scaling_factor, env_wrong_hidpi]
  · rw [modifier_composites_outputs env_wrong_hidpi (3200, 1080) rfl hm hne (by decide),
      hh, hws]
    decide
  · rw [indicator_composites_outputs env_wrong_hidpi (3200, 1080) hne (by decide), hd]
    decide

/-- The overlap of C11 is not particular to 192 dpi: from 109 dpi on, on every
output the offset `h_scaled + 50` of the panel falls short of the lower half of
the indicator. -/
theorem modifier_panel_overlaps_from_109_dpi (g : env) (h : 109 ≤ g.dpi_value) (r : Rect) :
    r.y + ((r.height / 2 : Nat) : Int) + modifier_h_scaled g + 50
      < r.y + (((r.height / 2 : Nat) : Int) - button_diameter_physical g / 2)
          + button_diameter_physical g := by
  rw [button_diameter_physical_eq, modifier_h_scaled_eq]
  omega

end UnlockIndicator
